import Mathlib

/-!
Verification development for the BSC store server (`server.js`).

The server's handlers are embedded shallowly: MongoDB collections become
Lean lists inside a `State` record, each HTTP handler becomes a pure
function from `State` (plus its request parameters) to a new `State`
together with its response, and JavaScript numbers are modelled as
integers (`ℤ`) for money, quantities and stock, with calendar dates and
ISO timestamps kept as strings compared code-point-wise, the way
`localeCompare` compares the ASCII date strings the server produces.
-/

namespace BscStore

/-- Code-point lexicographic strict comparison on character lists; used to
model `String.prototype.localeCompare` on the ASCII date/time strings the
server stores. -/
def charListLt : List Char → List Char → Bool
  | [], [] => false
  | [], _ :: _ => true
  | _ :: _, [] => false
  | a :: as, b :: bs =>
    if a < b then true
    else if a = b then charListLt as bs
    else false

/-- Strict string comparison modelling `a.localeCompare(b) < 0`. -/
def strLt (a b : String) : Bool := charListLt a.data b.data

/-- Reflexive string comparison modelling `a.localeCompare(b) <= 0`. -/
def strLe (a b : String) : Bool := strLt a b || a == b

/-- Models the `parseFloat(x.toFixed(2))` round-trip the server applies to
computed totals.  On the integral amounts of this model the round-trip is
the identity. -/
def toFixed2 (x : ℤ) : ℤ := x

/-- Models the JavaScript `x || y` fallback on numbers (`0` is falsy). -/
def jsOr (a b : ℤ) : ℤ := if a = 0 then b else a

/-- Models the JavaScript `s || t` fallback on strings (`''` is falsy). -/
def strOr (a b : String) : String := if a = "" then b else a

/-- Replaces the first list element satisfying `p` (MongoDB `updateOne`
semantics: only the first matching document is updated). -/
def updateFirst (p : α → Bool) (f : α → α) : List α → List α
  | [] => []
  | a :: l => if p a then f a :: l else a :: updateFirst p f l

/-- One `priceTiers` element: `{ minQty, price }`. -/
structure PriceTier where
  minQty : ℤ
  price : ℤ
deriving DecidableEq, Repr

/-- One product variant: `{ id, label, inStock, priceTiers }`. -/
structure Variant where
  vid : String
  label : String
  inStock : Bool
  priceTiers : List PriceTier
deriving DecidableEq, Repr

/-- A `products` collection document.  `stockQuantity` is `none` when the
stored value is not a number (legacy/untracked product), mirroring the
`typeof p.stockQuantity === 'number'` checks in the server. -/
structure Product where
  id : ℕ
  name : String
  disabled : Bool
  stockQuantity : Option ℤ
  lowStockThreshold : Option ℤ
  variants : Option (List Variant)
  unit : String
  priceTiersLegacy : Option (List PriceTier)
  inStockLegacy : Bool
deriving DecidableEq, Repr

/-- `migrateProduct` (server.js line 129): normalises a product document so
that `variants` is always present, synthesising the single `v1` variant
from the legacy flat fields when needed.  Only the fields the embedded
handlers read are carried over. -/
def migrateProduct (p : Product) : Product :=
  match p.variants with
  | some _ => p
  | none =>
    { p with
      variants := some [{ vid := "v1", label := strOr p.unit "1 unit",
                          inStock := p.inStockLegacy,
                          priceTiers := p.priceTiersLegacy.getD [{ minQty := 1, price := 0 }] }] }

/-- A `customers` collection document. -/
structure Customer where
  customerId : ℕ
  name : String
  phone : String
  address : String
  block : String
  villa : String
  pin : Option String
  pinPlain : Option String
  active : Bool
  creditLimit : ℤ
  notes : String
  joinedAt : String
  deleted : Bool
  deletedAt : Option String
deriving DecidableEq, Repr

/-- An item snapshot stored on ledger/udhar entries. -/
structure SnapItem where
  name : String
  qty : ℤ
  price : ℤ
deriving DecidableEq, Repr

/-- A unified `ledger` collection document. -/
structure LedgerEntry where
  id : ℕ
  customerId : ℕ
  type : String
  amount : ℤ
  note : String
  date : String
  source : Option String
  legacyId : Option ℕ
  orderId : Option ℕ
  items : List SnapItem
  createdAt : String
deriving DecidableEq, Repr

/-- A legacy `udharEntries` collection document.  `inLedger` mirrors the
flag the statement endpoint reads at line 1607 (never written by the
server, hence `false` on every record it creates). -/
structure UdharEntry where
  id : ℕ
  customerId : ℕ
  items : List SnapItem
  amount : ℤ
  date : String
  note : String
  type : String
  orderId : Option ℕ
  createdAt : String
  inLedger : Bool
deriving DecidableEq, Repr

/-- A legacy `udharPayments` collection document. -/
structure UdharPayment where
  id : ℕ
  customerId : ℕ
  amount : ℤ
  method : String
  note : String
  paidAt : String
  date : String
deriving DecidableEq, Repr

/-- One itemised milk-log line: `{ type, qty, price }`. -/
structure MilkItem where
  type : String
  qty : ℤ
  price : ℤ
deriving DecidableEq, Repr

/-- A `milkLogs` collection document. -/
structure MilkLog where
  id : ℕ
  customerId : ℕ
  date : String
  month : String
  qty : ℤ
  price : ℤ
  items : List MilkItem
  markedAt : String
deriving DecidableEq, Repr

/-- A `milkPayments` collection document. -/
structure MilkPayment where
  customerId : ℕ
  month : String
  amount : ℤ
  note : String
  paidAt : String
deriving DecidableEq, Repr

/-- A cart line item as submitted by the client (`price` is the
client-supplied advisory price) and as stored on orders after the server
overwrites `price` with the recomputed one. -/
structure OrderItem where
  productId : ℕ
  variantId : String
  name : String
  variantLabel : String
  qty : ℤ
  price : ℤ
  isFreeGift : Bool
deriving DecidableEq, Repr

/-- An `orders` collection document. -/
structure Order where
  id : ℕ
  customerName : String
  phone : String
  block : String
  villa : String
  note : String
  items : List OrderItem
  total : ℤ
  freeGift : Bool
  paymentMethod : String
  customerId : Option ℕ
  status : String
  addedToUdhar : Bool
  stockRestored : Bool
  paid : Bool
  createdAt : String
deriving DecidableEq, Repr

/-- The `settings` document fields the embedded handlers read. -/
structure Settings where
  milkPrice : ℤ
  freeGiftDiscountPrice : ℤ
deriving DecidableEq, Repr

/-- The persistent store: one list per MongoDB collection plus the named
counters backing `getNextId`. -/
structure State where
  counters : List (String × ℕ)
  products : List Product
  customers : List Customer
  orders : List Order
  ledger : List LedgerEntry
  udharEntries : List UdharEntry
  udharPayments : List UdharPayment
  milkLogs : List MilkLog
  milkPayments : List MilkPayment
  settings : Settings
deriving DecidableEq, Repr

/-- Current value of a named counter (`0` before first use, matching the
`$inc` upsert). -/
def getCounter (cs : List (String × ℕ)) (name : String) : ℕ :=
  (((cs.find? (fun c => c.1 == name)).map (fun c => c.2)).getD 0)

/-- `getNextId` (server.js line 112): atomic increment-and-fetch of a named
counter; returns the fresh id and the updated state. -/
def getNextId (s : State) (name : String) : ℕ × State :=
  let fresh := getCounter s.counters name + 1
  let cs :=
    if s.counters.any (fun c => c.1 == name) then
      updateFirst (fun c => c.1 == name) (fun c => (c.1, fresh)) s.counters
    else
      s.counters ++ [(name, fresh)]
  (fresh, { s with counters := cs })

/-- The tier ordering of the comparator `(a, b) => a.minQty - b.minQty`. -/
def tierLe (a b : PriceTier) : Prop := a.minQty ≤ b.minQty

instance : DecidableRel tierLe := fun a b => by
  unfold tierLe
  infer_instance

instance : IsTotal PriceTier tierLe := ⟨fun a b => le_total a.minQty b.minQty⟩

instance : IsTrans PriceTier tierLe := ⟨fun _ _ _ h1 h2 => le_trans h1 h2⟩

/-- The tier list sorted ascending by `minQty`, modelling
`[...tiers].sort((a, b) => a.minQty - b.minQty)` at line 1114. -/
def sortTiers (tiers : List PriceTier) : List PriceTier :=
  List.insertionSort tierLe tiers

/-- The price-selection loop at line 1116: walk the sorted tiers and keep
the price of every tier whose threshold the quantity meets. -/
def tierFold (qty : ℤ) (tiers : List PriceTier) (d : ℤ) : ℤ :=
  tiers.foldl (fun p t => if t.minQty ≤ qty then t.price else p) d

/-- Tier-price resolution for a tier list (lines 1114-1116): sort
ascending by `minQty`, start from the first sorted tier's price
(`tiers[0]?.price || 0`) and take the last tier whose `minQty <= qty`. -/
def resolveTierPrice (tiers : List PriceTier) (qty : ℤ) : ℤ :=
  let sorted := sortTiers tiers
  tierFold qty sorted (((sorted.head?.map (fun t => t.price))).getD 0)

/-- Server-side unit price resolution (lines 1112-1116): find the matching
variant (falling back to the first variant) and resolve its tier price. -/
def serverUnitPrice (product : Product) (variantId : String) (qty : ℤ) : ℤ :=
  let migrated := migrateProduct product
  let variants := (migrated.variants).getD []
  let variant := ((variants.find? (fun v => v.vid == variantId)).orElse (fun _ => variants.head?))
  resolveTierPrice (((variant.map (fun v => v.priceTiers))).getD []) qty

/-- The filter of the conditional write
`{ id: item.productId, stockQuantity: { $gte: item.qty } }` (line 1103):
matches a document only when its `stockQuantity` is a number at least
`qty`. -/
def condStockMatch (pid : ℕ) (qty : ℤ) (p : Product) : Bool :=
  p.id == pid &&
    (match p.stockQuantity with
     | some st => decide (qty ≤ st)
     | none => false)

/-- The compare-and-swap stock decrement
(`findOneAndUpdate({id, stockQuantity: {$gte: qty}}, {$inc: {stockQuantity: -qty}})`,
lines 1102-1106): `none` models the update matching no document (the lost
conditional write). -/
def conditionalDecrement (s : State) (pid : ℕ) (qty : ℤ) : Option State :=
  if s.products.any (condStockMatch pid qty) then
    some { s with
      products := updateFirst (condStockMatch pid qty)
        (fun p => { p with stockQuantity := p.stockQuantity.map (fun st => st - qty) })
        s.products }
  else none

/-- The per-item stock checks of lines 1099-1110: skip reservation for
untracked products, reject at zero or insufficient stock, then perform the
conditional decrement. -/
def reserveStock (s : State) (product : Product) (item : OrderItem) : Except String State :=
  match product.stockQuantity with
  | none => Except.ok s
  | some st =>
    if st = 0 then Except.error (product.name ++ " is Out of Stock.")
    else if st < item.qty then
      Except.error ("Only " ++ toString st ++ " unit(s) of " ++ product.name ++ " available.")
    else
      match conditionalDecrement s item.productId item.qty with
      | some s1 => Except.ok s1
      | none => Except.error (product.name ++ " stock changed during checkout. Please try again.")

/-- The main loop of POST /api/orders over the regular (non-gift) items
(lines 1095-1119): items whose product is missing are skipped, the other
items are checked and reserved, and each accepted item is re-priced with
the server-resolved tier price.  Returns the state after any decrements
already performed together with either the rejection reason or the
accumulated total and validated items. -/
def processOrderItems (s : State) (total : ℤ) (acc : List OrderItem) :
    List OrderItem → State × Except String (ℤ × List OrderItem)
  | [] => (s, Except.ok (total, acc))
  | item :: rest =>
    match s.products.find? (fun p => p.id == item.productId) with
    | none => processOrderItems s total acc rest
    | some product =>
      if product.disabled then (s, Except.error (product.name ++ " is not available."))
      else
        match reserveStock s product item with
        | Except.error e => (s, Except.error e)
        | Except.ok s1 =>
          let price := serverUnitPrice product item.variantId item.qty
          processOrderItems s1 (total + price * item.qty)
            (acc ++ [{ item with price := price }]) rest

/-- The request body of POST /api/orders. -/
structure OrderReq where
  customerName : String
  phone : String
  block : String
  villa : String
  note : String
  items : List OrderItem
  freeGift : Bool
  paymentMethod : String
deriving DecidableEq, Repr

/-- Item snapshot written to ledger entries, `name + (variant ? ...)`
(lines 1139-1141). -/
def snapOf (i : OrderItem) : SnapItem :=
  { name := i.name ++ (if i.variantLabel == "" then "" else " (" ++ i.variantLabel ++ ")"),
    qty := i.qty, price := i.price }

/-- The account-path side writes of POST /api/orders (lines 1142-1160):
post the `app_order` ledger credit and the matching legacy udhar entry. -/
def accountWrites (s2 : State) (c : Customer) (oid : ℕ) (total : ℤ)
    (udharItems : List SnapItem) (now : String) : State :=
  let lid := (getNextId s2 "ledgerId").1
  let s3 := (getNextId s2 "ledgerId").2
  let s4 := { s3 with ledger := s3.ledger ++
    [({ id := lid, customerId := c.customerId, type := "credit", amount := total,
        note := "App Order #" ++ toString oid, date := now.take 10,
        source := some "app_order", legacyId := none, orderId := some oid,
        items := udharItems, createdAt := now } : LedgerEntry)] }
  let uid := (getNextId s4 "udharId").1
  let s5 := (getNextId s4 "udharId").2
  { s5 with udharEntries := s5.udharEntries ++
    [({ id := uid, customerId := c.customerId, items := udharItems, amount := total,
        date := now.take 10, note := "App Order #" ++ toString oid, type := "app_order",
        orderId := some oid, createdAt := now, inLedger := false } : UdharEntry)] }

/-- The tail of POST /api/orders after a successful reservation loop
(lines 1120-1165): add the gift discount, create the order, and post the
ledger credit when paying on account as a registered customer. -/
def finalizeOrder (s1 : State) (req : OrderReq) (recalcTotal : ℤ)
    (validatedItems : List OrderItem) (now : String) : State × Except String Order :=
  let withGift :=
    if req.freeGift then recalcTotal + s1.settings.freeGiftDiscountPrice else recalcTotal
  let total := toFixed2 withGift
  let oid := (getNextId s1 "orderId").1
  let s2 := (getNextId s1 "orderId").2
  let customer := s2.customers.find? (fun c => c.phone == req.phone)
  let baseOrder : Order :=
    { id := oid, customerName := req.customerName, phone := req.phone,
      block := req.block, villa := req.villa, note := req.note,
      items := validatedItems ++ req.items.filter (fun i => i.isFreeGift),
      total := total, freeGift := req.freeGift,
      paymentMethod := strOr req.paymentMethod "cod",
      customerId := customer.map (fun c => c.customerId),
      status := "pending", addedToUdhar := false, stockRestored := false,
      paid := false, createdAt := now }
  match customer, req.paymentMethod == "account" with
  | some c, true =>
    let s6 := accountWrites s2 c oid total (validatedItems.map snapOf) now
    let finalOrder := { baseOrder with addedToUdhar := true }
    ({ s6 with orders := s6.orders ++ [finalOrder] }, Except.ok finalOrder)
  | _, _ =>
    ({ s2 with orders := s2.orders ++ [baseOrder] }, Except.ok baseOrder)

/-- POST /api/orders (lines 1085-1166): validate, re-price and reserve the
regular items, then finalize. -/
def placeOrder (s : State) (req : OrderReq) (now : String) : State × Except String Order :=
  if req.customerName == "" || req.phone == "" || req.items.isEmpty then
    (s, Except.error "Missing fields")
  else
    match processOrderItems s 0 [] (req.items.filter (fun i => !i.isFreeGift)) with
    | (s1, Except.error e) => (s1, Except.error e)
    | (s1, Except.ok (recalcTotal, validatedItems)) =>
      finalizeOrder s1 req recalcTotal validatedItems now

/-- PATCH /api/admin/products/:id/stock (lines 543-563): a relative
`adjustment` takes precedence over an absolute `stockQuantity`, both
clamped at zero; `lowStockThreshold` is clamped at zero as well. -/
def patchStock (s : State) (pid : ℕ) (stockQuantity : Option ℤ)
    (lowStockThreshold : Option ℤ) (adjustment : Option ℤ) : State :=
  match s.products.find? (fun p => p.id == pid) with
  | none => s
  | some product =>
    let f1 : Product → Product :=
      match adjustment with
      | some adj =>
        let current := product.stockQuantity.getD 0
        fun p => { p with stockQuantity := some (max 0 (current + adj)) }
      | none =>
        match stockQuantity with
        | some sq => fun p => { p with stockQuantity := some (max 0 sq) }
        | none => id
    let f2 : Product → Product :=
      match lowStockThreshold with
      | some th => fun p => { p with lowStockThreshold := some (max 0 th) }
      | none => id
    { s with products := updateFirst (fun p => p.id == pid) (fun p => f2 (f1 p)) s.products }

/-- The cancellation restock loop (lines 975-983): for each item whose
product exists and has numeric stock, `$inc` the stock by the item's
quantity. -/
def restockItems (s : State) : List OrderItem → State
  | [] => s
  | item :: rest =>
    let s1 :=
      match s.products.find? (fun p => p.id == item.productId) with
      | some product =>
        match product.stockQuantity with
        | some _ =>
          { s with products :=
              (updateFirst (fun p => p.id == item.productId)
                (fun p => { p with stockQuantity := p.stockQuantity.map (fun st => st + item.qty) })
                s.products) }
        | none => s
      | none => s
    restockItems s1 rest

/-- PUT /api/admin/orders/:id restricted to a status update (lines
965-990): when moving into `cancelled` from a non-cancelled, non-restored
state, restore stock for the non-gift items and set `stockRestored`;
otherwise just set the new status. -/
def putOrderStatus (s : State) (orderId : ℕ) (newStatus : String) : State :=
  match s.orders.find? (fun o => o.id == orderId) with
  | none => s
  | some existing =>
    if newStatus == "cancelled" && existing.status != "cancelled" && !existing.stockRestored then
      let s1 := restockItems s (existing.items.filter (fun i => !i.isFreeGift))
      { s1 with orders :=
          (updateFirst (fun o => o.id == orderId)
            (fun o => { o with status := newStatus, stockRestored := true }) s1.orders) }
    else
      { s with orders :=
          (updateFirst (fun o => o.id == orderId)
            (fun o => { o with status := newStatus }) s.orders) }

/-- The ledger fold of GET /api/admin/customers/:id (lines 675-679):
credits add, payments subtract, other types are ignored. -/
def ledgerBalanceOf (entries : List LedgerEntry) (cid : ℕ) : ℤ :=
  (entries.filter (fun e => e.customerId == cid)).foldl
    (fun acc e =>
      if e.type == "credit" then acc + e.amount
      else if e.type == "payment" then acc - e.amount
      else acc) 0

/-- The legacy fold of lines 680-681: all `udharEntries` minus all
`udharPayments` of the customer, with no migration filtering. -/
def oldUdharBalanceOf (s : State) (cid : ℕ) : ℤ :=
  ((s.udharEntries.filter (fun e => e.customerId == cid)).foldl (fun acc e => acc + e.amount) 0)
    - ((s.udharPayments.filter (fun p => p.customerId == cid)).foldl (fun acc p => acc + p.amount) 0)

/-- The balance reported by GET /api/admin/customers/:id (line 690), also
the per-customer balance of the admin list endpoint (lines 629-654):
ledger balance plus the unconditional legacy balance. -/
def adminCustomerBalance (s : State) (cid : ℕ) : ℤ :=
  ledgerBalanceOf s.ledger cid + oldUdharBalanceOf s cid

/-- True when a ledger entry records the migration of legacy credit
record `legacyId` (`source = 'legacy_udhar'`). -/
def legacyCreditMigrated (ledger : List LedgerEntry) (legacyId : ℕ) : Bool :=
  ledger.any (fun l => l.source == some "legacy_udhar" && l.legacyId == some legacyId)

/-- True when a ledger entry records the migration of legacy payment
record `legacyId` (`source = 'legacy_payment'`). -/
def legacyPaymentMigrated (ledger : List LedgerEntry) (legacyId : ℕ) : Bool :=
  ledger.any (fun l => l.source == some "legacy_payment" && l.legacyId == some legacyId)

/-- Modelled from the spec (4.4): the balance the specification asks the
admin views to report — ledger balance plus the legacy balance restricted
to the legacy records not yet migrated into the ledger.  Second definition
written from the spec's words, to be compared with
`adminCustomerBalance`. -/
def specClaimedBalance (s : State) (cid : ℕ) : ℤ :=
  ledgerBalanceOf s.ledger cid
    + ((s.udharEntries.filter
        (fun e => e.customerId == cid && !legacyCreditMigrated s.ledger e.id)).foldl
        (fun acc e => acc + e.amount) 0)
    - ((s.udharPayments.filter
        (fun p => p.customerId == cid && !legacyPaymentMigrated s.ledger p.id)).foldl
        (fun acc p => acc + p.amount) 0)

/-- POST /api/admin/udhar (lines 866-893): validates, then writes the
credit to the new ledger AND to the legacy `udharEntries` store. -/
def postAdminUdhar (s : State) (customerId : ℕ) (amount : ℤ) (date note entryType : String)
    (items : List SnapItem) (now : String) : State × Except String Unit :=
  if customerId = 0 || amount = 0 then (s, Except.error "customerId and amount required")
  else
    let (lid, s1) := getNextId s "ledgerId"
    let s2 := { s1 with ledger := s1.ledger ++
      [({ id := lid, customerId := customerId, type := "credit", amount := amount,
          note := strOr note (if items.isEmpty then "" else
            String.intercalate ", " (items.map (fun i => i.name))),
          date := strOr date (now.take 10), source := some "manual", legacyId := none,
          orderId := none, items := items, createdAt := now } : LedgerEntry)] }
    let (uid, s3) := getNextId s2 "udharId"
    ({ s3 with udharEntries := s3.udharEntries ++
      [({ id := uid, customerId := customerId, items := items, amount := amount,
          date := strOr date (now.take 10), note := note,
          type := strOr entryType "purchase", orderId := none, createdAt := now,
          inLedger := false } : UdharEntry)] }, Except.ok ())

/-- The ledger entry the migration writes for one legacy credit record
(lines 1430-1441), given the fresh sequence id. -/
def creditEntryOf (now : String) (lid : ℕ) (e : UdharEntry) : LedgerEntry :=
  { id := lid, customerId := e.customerId, type := "credit", amount := e.amount,
    note := strOr e.note (strOr (String.intercalate ", " (e.items.map (fun i => i.name)))
      "Migrated entry"),
    date := strOr e.date (strOr (e.createdAt.take 10) (now.take 10)),
    source := some "legacy_udhar", legacyId := some e.id, orderId := none,
    items := e.items, createdAt := strOr e.createdAt now }

/-- One credit-migration insert: draw a ledger id and append the
source-tagged entry. -/
def migrateCreditStep (now : String) (s : State) (e : UdharEntry) : State :=
  let s1 := (getNextId s "ledgerId").2
  { s1 with ledger := s1.ledger ++ [creditEntryOf now (getNextId s "ledgerId").1 e] }

/-- The ledger entry the migration writes for one legacy payment record
(lines 1448-1458), given the fresh sequence id. -/
def paymentEntryOf (now : String) (lid : ℕ) (p : UdharPayment) : LedgerEntry :=
  { id := lid, customerId := p.customerId, type := "payment", amount := p.amount,
    note := strOr p.note (strOr p.method "Migrated payment"),
    date := strOr p.date (strOr (p.paidAt.take 10) (now.take 10)),
    source := some "legacy_payment", legacyId := some p.id, orderId := none,
    items := [], createdAt := strOr p.paidAt now }

/-- One payment-migration insert: draw a ledger id and append the
source-tagged entry. -/
def migratePaymentStep (now : String) (s : State) (p : UdharPayment) : State :=
  let s1 := (getNextId s "ledgerId").2
  { s1 with ledger := s1.ledger ++ [paymentEntryOf now (getNextId s "ledgerId").1 p] }

/-- The credit half of POST /api/admin/migrate-to-ledger (lines
1427-1444): for each legacy credit record, insert a source-tagged ledger
entry unless one with the same `legacyId` already exists. -/
def migrateCredits (now : String) : State → List UdharEntry → State × ℕ
  | s, [] => (s, 0)
  | s, e :: rest =>
    if legacyCreditMigrated s.ledger e.id then migrateCredits now s rest
    else
      let res := migrateCredits now (migrateCreditStep now s e) rest
      (res.1, res.2 + 1)

/-- The payment half of POST /api/admin/migrate-to-ledger (lines
1445-1461). -/
def migratePayments (now : String) : State → List UdharPayment → State × ℕ
  | s, [] => (s, 0)
  | s, p :: rest =>
    if legacyPaymentMigrated s.ledger p.id then migratePayments now s rest
    else
      let res := migratePayments now (migratePaymentStep now s p) rest
      (res.1, res.2 + 1)

/-- POST /api/admin/migrate-to-ledger (lines 1420-1462): runs over the
snapshots of both legacy stores (taken before either loop) and returns the
new state with the `migratedCredits` and `migratedPayments` counts. -/
def migrateLegacyToLedger (s : State) (now : String) : State × ℕ × ℕ :=
  let credits := migrateCredits now s s.udharEntries
  let payments := migratePayments now credits.1 s.udharPayments
  (payments.1, credits.2, payments.2)

/-- The customer object as serialised in customer-bearing responses.  The
admin list (line 651), admin detail (line 684), admin create (lines 714
and 724), admin update (line 742) and the customer dashboard (line 1558)
all strip exactly the `pin` hash (`{...c, pin: undefined}` respectively
`const { pin, ...safeCustomer } = c`); every other stored field, including
`pinPlain`, is passed through. -/
structure CustomerView where
  customerId : ℕ
  name : String
  phone : String
  address : String
  block : String
  villa : String
  pinPlain : Option String
  active : Bool
  creditLimit : ℤ
  notes : String
  joinedAt : String
  deleted : Bool
  deletedAt : Option String
deriving DecidableEq, Repr

/-- The shared response projection dropping only the `pin` hash. -/
def customerView (c : Customer) : CustomerView :=
  { customerId := c.customerId, name := c.name, phone := c.phone, address := c.address,
    block := c.block, villa := c.villa, pinPlain := c.pinPlain, active := c.active,
    creditLimit := c.creditLimit, notes := c.notes, joinedAt := c.joinedAt,
    deleted := c.deleted, deletedAt := c.deletedAt }

/-- One merged statement row of GET /api/customer/ledger. -/
structure StatementEntry where
  sid : String
  date : String
  type : String
  src : String
  description : String
  amount : ℤ
  debit : Bool
  time : String
  note : String
deriving DecidableEq, Repr

/-- The statement summary of line 1615. -/
structure StatementSummary where
  milkTotal : ℤ
  orderTotal : ℤ
  udharTotal : ℤ
  paymentsTotal : ℤ
  totalDebits : ℤ
  outstanding : ℤ
deriving DecidableEq, Repr

/-- The sort comparator of line 1609,
`a.date.localeCompare(b.date) || (a.time || '').localeCompare(b.time || '')`,
as a reflexive ordering: earlier date first, ties broken by time. -/
def entryLeB (a b : StatementEntry) : Bool :=
  strLt a.date b.date || (a.date == b.date && strLe a.time b.time)

/-- Propositional form of `entryLeB`, used to state sortedness. -/
def entryLE (a b : StatementEntry) : Prop := entryLeB a b = true

instance : DecidableRel entryLE := fun a b => by
  unfold entryLE
  infer_instance

/-- Milk-delivery rows (lines 1585-1593). -/
def milkEntryOf (settings : Settings) (l : MilkLog) : StatementEntry :=
  { sid := "milk_" ++ toString l.id, date := l.date, type := "milk", src := "SUBSCRIPTION",
    description :=
      if l.items.isEmpty then "Milk delivery — " ++ toString l.qty ++ "L"
      else "Milk delivery — " ++
        String.intercalate ", " (l.items.map (fun i => toString i.qty ++ "L " ++ i.type)),
    amount :=
      if l.items.isEmpty then toFixed2 (l.qty * jsOr l.price (jsOr settings.milkPrice 60))
      else toFixed2 ((l.items.foldl (fun acc i => acc + i.qty * i.price) 0)),
    debit := true, time := l.markedAt, note := "" }

/-- Milk-payment rows (line 1594). -/
def milkPaymentEntryOf (month : String) (p : MilkPayment) : StatementEntry :=
  { sid := "milkpay_" ++ p.paidAt.take 10 ++ "_" ++ toString p.amount,
    date := if p.paidAt == "" then month ++ "-01" else p.paidAt.take 10,
    type := "payment", src := "PAYMENT",
    description := "Milk payment — " ++ strOr p.note "Cash",
    amount := p.amount, debit := false, time := p.paidAt, note := p.note }

/-- App-order rows (line 1595). -/
def orderEntryOf (o : Order) : StatementEntry :=
  { sid := "order_" ++ toString o.id, date := o.createdAt.take 10, type := "order",
    src := "APP",
    description := "App order #" ++ toString o.id ++ " — " ++
      String.intercalate ", " ((o.items.take 2).map (fun i => i.name)) ++
      (if o.items.length > 2 then " +" ++ toString (o.items.length - 2) ++ " more" else ""),
    amount := o.total, debit := true, time := o.createdAt, note := o.note }

/-- Unified-ledger rows (lines 1597-1605); entries that are neither
credits nor payments produce no row. -/
def ledgerEntryRowOf (e : LedgerEntry) : Option StatementEntry :=
  if e.source == some "app_order" || e.source == some "legacy_udhar" then
    some ({ sid := "ledger_" ++ toString e.id, date := e.date,
            type := (if e.type == "credit" then "udhar" else "udhar_payment"), src := "STORE",
            description := strOr e.note "Store purchase", amount := e.amount,
            debit := e.type == "credit", time := e.createdAt, note := e.note } : StatementEntry)
  else if e.type == "payment" then
    some ({ sid := "ledger_" ++ toString e.id, date := e.date, type := "udhar_payment",
            src := "PAYMENT", description := "Payment received — " ++ strOr e.note "Cash",
            amount := e.amount, debit := false, time := e.createdAt, note := e.note } : StatementEntry)
  else if e.type == "credit" then
    some ({ sid := "ledger_" ++ toString e.id, date := e.date, type := "udhar",
            src := "STORE", description := strOr e.note "Store purchase", amount := e.amount,
            debit := true, time := e.createdAt, note := e.note } : StatementEntry)
  else none

/-- Legacy udhar rows (line 1607). -/
def udharEntryRowOf (e : UdharEntry) : StatementEntry :=
  { sid := "udhar_" ++ toString e.id, date := e.date, type := "udhar", src := "STORE",
    description :=
      if e.items.isEmpty then strOr e.note "Store purchase"
      else String.intercalate ", " ((e.items.take 2).map (fun i => i.name)) ++
        (if e.items.length > 2 then " +" ++ toString (e.items.length - 2) ++ " more" else ""),
    amount := e.amount, debit := true, time := e.createdAt, note := e.note }

/-- Legacy udhar-payment rows (line 1608). -/
def udharPaymentRowOf (p : UdharPayment) : StatementEntry :=
  { sid := "udpay_" ++ toString p.id, date := p.date, type := "udhar_payment",
    src := "PAYMENT", description := "Payment received — " ++ strOr p.method "Cash",
    amount := p.amount, debit := false, time := p.paidAt, note := p.note }

/-- Sum of the amounts of the rows matching `pred` (the category folds of
lines 1610-1613). -/
def sumAmounts (entries : List StatementEntry) (pred : StatementEntry → Bool) : ℤ :=
  (entries.filter pred).foldl (fun acc e => acc + e.amount) 0

/-- The body of GET /api/customer/ledger after the customer lookup (lines
1576-1615): merge milk logs, milk payments, this month's non-cancelled app
orders, ledger rows and unmigrated legacy rows, sort by date then time,
and fold the category totals. -/
def buildStatement (s : State) (c : Customer) (month : String) :
    List StatementEntry × StatementSummary :=
  let cid := c.customerId
  let milkRows := (s.milkLogs.filter (fun l => l.customerId == cid && l.month == month)).map
    (milkEntryOf s.settings)
  let milkPayRows := (s.milkPayments.filter (fun p => p.customerId == cid && p.month == month)).map
    (milkPaymentEntryOf month)
  let orderRows := ((s.orders.filter (fun o =>
      (o.customerId == some cid || o.phone == c.phone) && o.status != "cancelled")).filter
      (fun o => o.createdAt != "" && o.createdAt.take 7 == month)).map orderEntryOf
  let ledgerRows := ((s.ledger.filter (fun e => e.customerId == cid)).filter
      (fun e => e.date != "" && e.date.take 7 == month)).filterMap ledgerEntryRowOf
  let udharRows := ((s.udharEntries.filter (fun e => e.customerId == cid)).filter
      (fun e => e.date != "" && e.date.take 7 == month && !e.inLedger)).map udharEntryRowOf
  let udharPayRows := ((s.udharPayments.filter (fun p => p.customerId == cid)).filter
      (fun p => p.date != "" && p.date.take 7 == month)).map udharPaymentRowOf
  let merged := milkRows ++ milkPayRows ++ orderRows ++ ledgerRows ++ udharRows ++ udharPayRows
  let entries := List.insertionSort entryLE merged
  let milkTotal := sumAmounts entries (fun e => e.type == "milk")
  let orderTotal := sumAmounts entries (fun e => e.type == "order")
  let udharTotal := sumAmounts entries (fun e => e.type == "udhar")
  let paymentsTotal := sumAmounts entries (fun e => e.type == "payment" || e.type == "udhar_payment")
  let totalDebits := milkTotal + orderTotal + udharTotal
  (entries,
   { milkTotal := milkTotal, orderTotal := orderTotal, udharTotal := udharTotal,
     paymentsTotal := paymentsTotal, totalDebits := totalDebits,
     outstanding := totalDebits - paymentsTotal })

/-- GET /api/customer/ledger (lines 1569-1616): 404 when the customer does
not exist, otherwise the merged monthly statement. -/
def customerLedgerStatement (s : State) (cid : ℕ) (month : String) :
    Except String (List StatementEntry × StatementSummary) :=
  match s.customers.find? (fun c => c.customerId == cid) with
  | none => Except.error "Not found"
  | some c => Except.ok (buildStatement s c month)

/-- The numeric stock of the first product with the given id, as the
handlers read it (`findOne({ id })` then `stockQuantity`). -/
def stockOf (s : State) (pid : ℕ) : Option ℤ :=
  (s.products.find? (fun p => p.id == pid)).bind (fun p => p.stockQuantity)

/-- The non-negativity invariant of the spec: every stock-tracked product
has stock at least zero. -/
def allStocksNonneg (s : State) : Prop :=
  ∀ p ∈ s.products, ∀ q : ℤ, p.stockQuantity = some q → 0 ≤ q

instance (s : State) : Decidable (allStocksNonneg s) := by
  unfold allStocksNonneg
  infer_instance

/-- The server-side line amount of one cart item: tier price times
quantity for the product the item references, `0` when the product does
not exist (such items are skipped by checkout).  Reads only `productId`,
`variantId` and `qty` — never the client-submitted `price`. -/
def serverLineTotal (s : State) (i : OrderItem) : ℤ :=
  match s.products.find? (fun p => p.id == i.productId) with
  | some product => serverUnitPrice product i.variantId i.qty * i.qty
  | none => 0

/-- The server-side cart total: sum of the non-gift line amounts plus the
configured free-gift discount price when a gift is included.  Independent
of every client-submitted item price. -/
def serverCartTotal (s : State) (items : List OrderItem) (gift : Bool) : ℤ :=
  ((items.filter (fun i => !i.isFreeGift)).foldl (fun acc i => acc + serverLineTotal s i) 0)
    + (if gift then s.settings.freeGiftDiscountPrice else 0)

/-- Total quantity the cancellation restock adds to product `pid` for an
order: the sum of the quantities of the order's non-gift items referencing
that product. -/
def restockAmount (o : Order) (pid : ℕ) : ℤ :=
  (o.items.filter (fun i => !i.isFreeGift && i.productId == pid)).foldl
    (fun acc i => acc + i.qty) 0

/-- Number of ledger entries recording a migration of legacy credit
record `legacyId`. -/
def countLegacyCredit (ledger : List LedgerEntry) (legacyId : ℕ) : ℕ :=
  (ledger.filter (fun l => l.source == some "legacy_udhar" && l.legacyId == some legacyId)).length

/-- Number of ledger entries recording a migration of legacy payment
record `legacyId`. -/
def countLegacyPayment (ledger : List LedgerEntry) (legacyId : ℕ) : ℕ :=
  (ledger.filter (fun l => l.source == some "legacy_payment" && l.legacyId == some legacyId)).length

/-! Concrete fixtures used by the example-level theorems. -/

/-- A fixed request timestamp. -/
def exNow : String := "2025-09-01T00:00:00.000Z"

/-- Store settings fixture. -/
def exSettings : Settings := { milkPrice := 60, freeGiftDiscountPrice := 0 }

/-- Product 1: five units in stock, single tier priced 100. -/
def exProductA : Product :=
  { id := 1, name := "A", disabled := false, stockQuantity := some 5,
    lowStockThreshold := some 5,
    variants := some [{ vid := "v1", label := "1kg", inStock := true,
                        priceTiers := [{ minQty := 1, price := 100 }] }],
    unit := "", priceTiersLegacy := none, inStockLegacy := true }

/-- Product 2: two units in stock, bulk tiers 80 / 70. -/
def exProductB : Product :=
  { id := 2, name := "B", disabled := false, stockQuantity := some 2,
    lowStockThreshold := some 5,
    variants := some [{ vid := "v1", label := "1kg", inStock := true,
                        priceTiers := [{ minQty := 1, price := 80 },
                                       { minQty := 5, price := 70 }] }],
    unit := "", priceTiersLegacy := none, inStockLegacy := true }

/-- A cart line item fixture. -/
def exItem (pid : ℕ) (q : ℤ) (clientPrice : ℤ) : OrderItem :=
  { productId := pid, variantId := "v1", name := "X", variantLabel := "",
    qty := q, price := clientPrice, isFreeGift := false }

/-- Catalog-only state fixture. -/
def exState : State :=
  { counters := [], products := [exProductA, exProductB], customers := [], orders := [],
    ledger := [], udharEntries := [], udharPayments := [], milkLogs := [],
    milkPayments := [], settings := exSettings }

/-- A two-item cart whose second item exceeds product 2's stock. -/
def exReqC1 : OrderReq :=
  { customerName := "N", phone := "123", block := "", villa := "", note := "",
    items := [exItem 1 1 1, exItem 2 5 1], freeGift := false, paymentMethod := "" }

/-- A registered customer fixture. -/
def exCustomer : Customer :=
  { customerId := 1, name := "C", phone := "123", address := "", block := "", villa := "",
    pin := some "hashA", pinPlain := some "1234", active := true, creditLimit := 0,
    notes := "", joinedAt := "2025-01-01T00:00:00.000Z", deleted := false, deletedAt := none }

/-- State with one registered customer and empty financial stores. -/
def exCustState : State := { exState with customers := [exCustomer] }

/-- State with one legacy credit of 100 for customer 1 and an empty
ledger. -/
def exLegacyState : State :=
  { exCustState with
    udharEntries := [{ id := 1, customerId := 1, items := [], amount := 100,
                       date := "2025-01-01", note := "old credit", type := "purchase",
                       orderId := none, createdAt := "2025-01-01T00:00:00.000Z",
                       inLedger := false }] }

/-- C1.  POST /api/orders with a cart of two stock-tracked items where the
second item's reservation is rejected for insufficient stock: the order is
rejected, but the decrement already performed for the first item is NOT
rolled back — product 1's stock drops from 5 to 4 even though no order was
created. -/
theorem placeOrder_rejection_keeps_earlier_decrement :
    (placeOrder exState exReqC1 exNow).2 = Except.error "Only 2 unit(s) of B available."
    ∧ stockOf exState 1 = some 5
    ∧ stockOf (placeOrder exState exReqC1 exNow).1 1 = some 4
    ∧ (placeOrder exState exReqC1 exNow).1.orders = [] := by
  exact ⟨rfl, rfl, rfl, rfl⟩

/-- C2.  The admin balance double counts migrated and dual-written
records: a single legacy credit of 100 yields a reported balance of 100
before migration but 200 after (the spec formula still gives 100), and a
single new credit of 100 posted through POST /api/admin/udhar yields a
reported balance of 200 because it is written to both stores. -/
theorem adminBalance_double_counts_migrated_records :
    adminCustomerBalance exLegacyState 1 = 100
    ∧ (migrateLegacyToLedger exLegacyState exNow).2 = (1, 0)
    ∧ adminCustomerBalance (migrateLegacyToLedger exLegacyState exNow).1 1 = 200
    ∧ specClaimedBalance (migrateLegacyToLedger exLegacyState exNow).1 1 = 100
    ∧ adminCustomerBalance (postAdminUdhar exCustState 1 100 "" "note" "" [] exNow).1 1 = 200 := by
  exact ⟨rfl, rfl, rfl, rfl, rfl⟩

/-- The same customer with a different stored PIN (hash and plaintext). -/
def exCustomerOtherPin : Customer :=
  { exCustomer with pin := some "hashB", pinPlain := some "9999" }

/-- C9 counterexample.  Two database states that differ only in customer
1's stored PIN produce different customer-record responses, because the
response projection keeps the plaintext `pinPlain` field (only the `pin`
hash is stripped). -/
theorem customerView_depends_on_stored_pin :
    exCustomerOtherPin = { exCustomer with pin := some "hashB", pinPlain := some "9999" }
    ∧ customerView exCustomer ≠ customerView exCustomerOtherPin
    ∧ (customerView exCustomer).pinPlain = some "1234" := by
  refine ⟨rfl, ?_, rfl⟩
  decide

/-- C9 amended.  Every customer-bearing response omits the `pin` hash:
two states that differ only in the stored hash (with `pinPlain` equal)
produce identical responses; `pinPlain` itself, however, is exposed. -/
theorem customerView_independent_of_pin_hash (c : Customer) (h1 h2 : Option String) :
    customerView { c with pin := h1 } = customerView { c with pin := h2 } := rfl

/-- Cart with a single item of quantity `-1` for product 1. -/
def exReqNeg : OrderReq :=
  { customerName := "N", phone := "123", block := "", villa := "", note := "",
    items := [exItem 1 (-1) 0], freeGift := false, paymentMethod := "" }

/-- Product 1 with a single unit in stock. -/
def exStateOneUnit : State :=
  { exState with products := [{ exProductA with stockQuantity := some 1 }] }

/-- C3 counterexample.  The non-negativity invariant is not preserved by
cancellation restock: place an order for quantity `-1` (accepted — the
stock checks pass and the conditional decrement adds one unit), set the
stock to 0 through the admin stock endpoint, then cancel the order; the
restock increments stock by `-1`, driving it to `-1 < 0`.  Every step is a
public API call starting from a state satisfying the invariant. -/
theorem cancelRestock_violates_stock_nonneg :
    allStocksNonneg exStateOneUnit
    ∧ (∃ ord, (placeOrder exStateOneUnit exReqNeg exNow).2 = Except.ok ord)
    ∧ stockOf (placeOrder exStateOneUnit exReqNeg exNow).1 1 = some 2
    ∧ allStocksNonneg
        (patchStock (placeOrder exStateOneUnit exReqNeg exNow).1 1 (some 0) none none)
    ∧ stockOf
        (putOrderStatus
          (patchStock (placeOrder exStateOneUnit exReqNeg exNow).1 1 (some 0) none none)
          1 "cancelled") 1 = some (-1)
    ∧ ¬ allStocksNonneg
        (putOrderStatus
          (patchStock (placeOrder exStateOneUnit exReqNeg exNow).1 1 (some 0) none none)
          1 "cancelled") := by
  refine ⟨by decide, ⟨_, rfl⟩, rfl, by decide, rfl, by decide⟩

/-- On a tier list sorted ascending by threshold, the selection fold
returns the default when no tier qualifies, and otherwise the price of a
qualifying tier whose threshold dominates every qualifying threshold. -/
theorem sorted_tierFold (q : ℤ) :
    ∀ l : List PriceTier, List.Sorted tierLe l →
    ∀ d : ℤ,
      ((∀ t ∈ l, ¬ t.minQty ≤ q) → tierFold q l d = d)
      ∧ ((∃ t ∈ l, t.minQty ≤ q) →
          ∃ t ∈ l, t.minQty ≤ q ∧ (∀ u ∈ l, u.minQty ≤ q → u.minQty ≤ t.minQty) ∧
            tierFold q l d = t.price) := by
  intro l
  induction l with
  | nil =>
    intro _ d
    refine ⟨fun _ => rfl, ?_⟩
    rintro ⟨t, ht, _⟩
    exact absurd ht (List.not_mem_nil t)
  | cons a l ih =>
    intro hs d
    rw [List.sorted_cons] at hs
    obtain ⟨hal, hsl⟩ := hs
    have hstep : tierFold q (a :: l) d = tierFold q l (if a.minQty ≤ q then a.price else d) := by
      simp [tierFold]
    constructor
    · intro hall
      have hna : ¬ a.minQty ≤ q := hall a (List.mem_cons_self a l)
      have hnl : ∀ t ∈ l, ¬ t.minQty ≤ q := fun t ht => hall t (List.mem_cons_of_mem a ht)
      rw [hstep, if_neg hna]
      exact (ih hsl d).1 hnl
    · intro hex0
      by_cases hqa : a.minQty ≤ q
      · rw [hstep, if_pos hqa]
        by_cases hex : ∃ t ∈ l, t.minQty ≤ q
        · obtain ⟨t, htl, htq, hmax, hfold⟩ := (ih hsl a.price).2 hex
          refine ⟨t, List.mem_cons_of_mem a htl, htq, ?_, hfold⟩
          intro u hu huq
          rcases List.mem_cons.mp hu with h | h
          · subst h
            exact hal t htl
          · exact hmax u h huq
        · push_neg at hex
          have hfold := (ih hsl a.price).1 (fun t ht => not_le.mpr (hex t ht))
          refine ⟨a, List.mem_cons_self a l, hqa, ?_, hfold⟩
          intro u hu huq
          rcases List.mem_cons.mp hu with h | h
          · subst h
            exact le_refl _
          · exact absurd huq (not_le.mpr (hex u h))
      · rw [hstep, if_neg hqa]
        have hex : ∃ t ∈ l, t.minQty ≤ q := by
          obtain ⟨t, htl, htq⟩ := hex0
          rcases List.mem_cons.mp htl with h | h
          · subst h
            exact absurd htq hqa
          · exact ⟨t, h, htq⟩
        obtain ⟨t, htl, htq, hmax, hfold⟩ := (ih hsl d).2 hex
        refine ⟨t, List.mem_cons_of_mem a htl, htq, ?_, hfold⟩
        intro u hu huq
        rcases List.mem_cons.mp hu with h | h
        · subst h
          exact absurd huq hqa
        · exact hmax u h huq

/-- C7.  For a non-empty tier list and any quantity, the resolved unit
price is the price of a qualifying tier whose `minQty` is greatest among
the qualifying tiers; when no tier qualifies it is the price of a tier
with the smallest `minQty`. -/
theorem resolveTierPrice_highest_qualifying (tiers : List PriceTier) (q : ℤ)
    (hne : tiers ≠ []) :
    (∃ t ∈ tiers, t.minQty ≤ q ∧ (∀ u ∈ tiers, u.minQty ≤ q → u.minQty ≤ t.minQty) ∧
        resolveTierPrice tiers q = t.price)
    ∨ ((∀ t ∈ tiers, q < t.minQty) ∧
        ∃ t ∈ tiers, (∀ u ∈ tiers, t.minQty ≤ u.minQty) ∧ resolveTierPrice tiers q = t.price) := by
  have hsort : List.Sorted tierLe (sortTiers tiers) := List.sorted_insertionSort tierLe tiers
  have hperm : (sortTiers tiers).Perm tiers := List.perm_insertionSort tierLe tiers
  have hmem : ∀ x : PriceTier, x ∈ sortTiers tiers ↔ x ∈ tiers := fun x => hperm.mem_iff
  have hdef : resolveTierPrice tiers q =
      tierFold q (sortTiers tiers) ((((sortTiers tiers).head?.map (fun t => t.price))).getD 0) :=
    rfl
  by_cases hex : ∃ t ∈ tiers, t.minQty ≤ q
  · left
    obtain ⟨t0, ht0, hq0⟩ := hex
    obtain ⟨t, htl, htq, hmax, hfold⟩ :=
      (sorted_tierFold q (sortTiers tiers) hsort
        ((((sortTiers tiers).head?.map (fun t => t.price))).getD 0)).2
        ⟨t0, (hmem t0).mpr ht0, hq0⟩
    refine ⟨t, (hmem t).mp htl, htq, ?_, ?_⟩
    · intro u hu huq
      exact hmax u ((hmem u).mpr hu) huq
    · rw [hdef]
      exact hfold
  · right
    push_neg at hex
    refine ⟨hex, ?_⟩
    have hlsne : sortTiers tiers ≠ [] := by
      intro h
      have h2 := hperm.symm
      rw [h] at h2
      exact hne h2.eq_nil
    cases hls : sortTiers tiers with
    | nil => exact absurd hls hlsne
    | cons a rest =>
      have hal : ∀ b ∈ rest, tierLe a b := by
        have hs2 := hsort
        rw [hls, List.sorted_cons] at hs2
        exact hs2.1
      have hfold := (sorted_tierFold q (sortTiers tiers) hsort
          ((((sortTiers tiers).head?.map (fun t => t.price))).getD 0)).1
        (fun t ht => not_le.mpr (hex t ((hmem t).mp ht)))
      refine ⟨a, (hmem a).mp (by rw [hls]; exact List.mem_cons_self a rest), ?_, ?_⟩
      · intro u hu
        have hu2 : u ∈ sortTiers tiers := (hmem u).mpr hu
        rw [hls] at hu2
        rcases List.mem_cons.mp hu2 with h | h
        · subst h
          exact le_refl _
        · exact hal u h
      · rw [hdef, hfold, hls]
        simp

/-- C7 witness: the spec's bulk-discount example, tiers
`[{minQty 1, price 80}, {minQty 5, price 70}]`, evaluated through the
theorem at quantity 100 and by direct computation at 4, 5 and 100. -/
theorem resolveTierPrice_highest_qualifying_witness :
    ([({ minQty := 1, price := 80 } : PriceTier), { minQty := 5, price := 70 }] ≠ [])
    ∧ ((∃ t ∈ [({ minQty := 1, price := 80 } : PriceTier), { minQty := 5, price := 70 }],
          t.minQty ≤ (100 : ℤ)
          ∧ (∀ u ∈ [({ minQty := 1, price := 80 } : PriceTier), { minQty := 5, price := 70 }],
              u.minQty ≤ (100 : ℤ) → u.minQty ≤ t.minQty)
          ∧ resolveTierPrice [{ minQty := 1, price := 80 }, { minQty := 5, price := 70 }] 100
              = t.price)
        ∨ ((∀ t ∈ [({ minQty := 1, price := 80 } : PriceTier), { minQty := 5, price := 70 }],
              (100 : ℤ) < t.minQty)
          ∧ ∃ t ∈ [({ minQty := 1, price := 80 } : PriceTier), { minQty := 5, price := 70 }],
              (∀ u ∈ [({ minQty := 1, price := 80 } : PriceTier), { minQty := 5, price := 70 }],
                t.minQty ≤ u.minQty)
              ∧ resolveTierPrice [{ minQty := 1, price := 80 }, { minQty := 5, price := 70 }] 100
                  = t.price))
    ∧ resolveTierPrice [{ minQty := 1, price := 80 }, { minQty := 5, price := 70 }] 4 = 80
    ∧ resolveTierPrice [{ minQty := 1, price := 80 }, { minQty := 5, price := 70 }] 5 = 70
    ∧ resolveTierPrice [{ minQty := 1, price := 80 }, { minQty := 5, price := 70 }] 100 = 70 :=
  ⟨by decide,
   resolveTierPrice_highest_qualifying
     [{ minQty := 1, price := 80 }, { minQty := 5, price := 70 }] 100 (by decide),
   by decide, by decide, by decide⟩

/-! Generic lemmas about `updateFirst` and `find?`. -/

/-- Updating the first match with a function that preserves the predicate
maps the found element. -/
theorem find?_updateFirst_map (pb : α → Bool) (f : α → α) (hf : ∀ x, pb (f x) = pb x) :
    ∀ l : List α, (updateFirst pb f l).find? pb = (l.find? pb).map f := by
  intro l
  induction l with
  | nil => rfl
  | cons a l ih =>
    by_cases ha : pb a
    · rw [updateFirst, if_pos ha, List.find?_cons_of_pos _ (by rw [hf a]; exact ha),
        List.find?_cons_of_pos _ ha]
      rfl
    · rw [updateFirst, if_neg ha, List.find?_cons_of_neg _ ha,
        List.find?_cons_of_neg _ (by simpa using ha), ih]

/-- Updating the first `pb`-match with a `qb`-preserving function leaves
the `qb`-find unchanged when no element can satisfy both predicates. -/
theorem find?_updateFirst_disjoint (pb qb : α → Bool) (f : α → α)
    (hq : ∀ x, qb (f x) = qb x) (hdisj : ∀ x, pb x = true → qb x = false) :
    ∀ l : List α, (updateFirst pb f l).find? qb = l.find? qb := by
  intro l
  induction l with
  | nil => rfl
  | cons a l ih =>
    by_cases ha : pb a
    · have hqa : qb a = false := hdisj a ha
      rw [updateFirst, if_pos ha, List.find?_cons_of_neg _ (by rw [hq a, hqa]; simp),
        List.find?_cons_of_neg _ (by rw [hqa]; simp)]
    · by_cases hqa : qb a
      · rw [updateFirst, if_neg ha, List.find?_cons_of_pos _ hqa, List.find?_cons_of_pos _ hqa]
      · rw [updateFirst, if_neg ha, List.find?_cons_of_neg _ (by simpa using hqa),
          List.find?_cons_of_neg _ (by simpa using hqa), ih]

/-- Shifting the initial accumulator out of an additive fold. -/
theorem foldl_add_init (g : α → ℤ) :
    ∀ (l : List α) (t : ℤ),
      l.foldl (fun acc i => acc + g i) t = t + l.foldl (fun acc i => acc + g i) 0 := by
  intro l
  induction l with
  | nil => intro t; simp
  | cons a l ih =>
    intro t
    rw [List.foldl_cons, List.foldl_cons, ih (t + g a), ih (0 + g a)]
    ring

/-- The restock loop leaves the orders collection untouched. -/
theorem restockItems_orders (l : List OrderItem) :
    ∀ s : State, (restockItems s l).orders = s.orders := by
  induction l with
  | nil => intro s; rfl
  | cons i l ih =>
    intro s
    rw [restockItems]
    cases hfind : s.products.find? (fun p => p.id == i.productId) with
    | none => simp only [hfind]; exact ih s
    | some product =>
      cases hst : product.stockQuantity with
      | none => simp only [hfind, hst]; exact ih s
      | some st => simp only [hfind, hst]; exact ih _

/-- Shifting the initial accumulator out of the quantity fold. -/
theorem foldl_qty_init :
    ∀ (l : List OrderItem) (t : ℤ),
      l.foldl (fun acc i => acc + i.qty) t = t + l.foldl (fun acc i => acc + i.qty) 0 := by
  intro l
  induction l with
  | nil => intro t; simp
  | cons a l ih =>
    intro t
    rw [List.foldl_cons, List.foldl_cons, ih (t + a.qty), ih (0 + a.qty)]
    ring

/-- Incrementing the stock of the first product with a given id, seen
through `stockOf`. -/
theorem stockOf_updateFirst_inc (s : State) (pid : ℕ) (delta : ℤ) (p : Product)
    (hp : s.products.find? (fun x => x.id == pid) = some p) (st : ℤ)
    (hpst : p.stockQuantity = some st) :
    stockOf { s with products :=
        (updateFirst (fun x => x.id == pid)
          (fun x => { x with stockQuantity := x.stockQuantity.map (fun q => q + delta) })
          s.products) } pid = some (st + delta) := by
  have h1 := find?_updateFirst_map (fun x : Product => x.id == pid)
    (fun x => { x with stockQuantity := x.stockQuantity.map (fun q => q + delta) })
    (fun x => rfl) s.products
  simp only [stockOf]
  rw [h1, hp]
  simp [hpst]

/-- Updating the stock of one product id leaves `stockOf` of every other
id unchanged. -/
theorem stockOf_updateFirst_other (s : State) (pid pid2 : ℕ) (hne : ¬ pid = pid2)
    (delta : ℤ) :
    stockOf { s with products :=
        (updateFirst (fun x => x.id == pid)
          (fun x => { x with stockQuantity := x.stockQuantity.map (fun q => q + delta) })
          s.products) } pid2 = stockOf s pid2 := by
  have h1 := find?_updateFirst_disjoint (fun x : Product => x.id == pid)
    (fun x => x.id == pid2)
    (fun x => { x with stockQuantity := x.stockQuantity.map (fun q => q + delta) })
    (fun x => rfl)
    (fun x hx => by
      show (x.id == pid2) = false
      rw [beq_iff_eq] at hx
      rw [hx]
      simp [hne]) s.products
  simp only [stockOf]
  rw [h1]

/-- The restock loop seen through `stockOf`: a tracked product gains the
summed quantity of the items referencing it. -/
theorem restockItems_stockOf_some (pid : ℕ) :
    ∀ (l : List OrderItem) (s : State) (st : ℤ), stockOf s pid = some st →
      stockOf (restockItems s l) pid =
        some (st + (l.filter (fun i => i.productId == pid)).foldl
          (fun acc i => acc + i.qty) 0) := by
  intro l
  induction l with
  | nil =>
    intro s st h
    simpa [restockItems] using h
  | cons i l ih =>
    intro s st h
    by_cases hip : i.productId = pid
    · subst hip
      obtain ⟨p, hp, hpst⟩ : ∃ p, s.products.find? (fun x => x.id == i.productId) = some p ∧
          p.stockQuantity = some st := by
        unfold stockOf at h
        cases hfp : s.products.find? (fun x => x.id == i.productId) with
        | none => rw [hfp] at h; simp at h
        | some p => rw [hfp] at h; exact ⟨p, rfl, by simpa using h⟩
      rw [restockItems]
      simp only [hp, hpst]
      rw [ih _ (st + i.qty) (stockOf_updateFirst_inc s i.productId i.qty p hp st hpst)]
      rw [List.filter_cons_of_pos (by simp)]
      rw [List.foldl_cons, foldl_qty_init (l.filter (fun j => j.productId == i.productId)) (0 + i.qty)]
      congr 1
      ring
    · rw [restockItems]
      cases hfp : s.products.find? (fun x => x.id == i.productId) with
      | none =>
        simp only [hfp]
        rw [List.filter_cons_of_neg (by simpa using hip)]
        exact ih s st h
      | some q =>
        cases hqst : q.stockQuantity with
        | none =>
          simp only [hfp, hqst]
          rw [List.filter_cons_of_neg (by simpa using hip)]
          exact ih s st h
        | some stq =>
          simp only [hfp, hqst]
          rw [List.filter_cons_of_neg (by simpa using hip)]
          refine ih _ st ?_
          rw [stockOf_updateFirst_other s i.productId pid hip i.qty]
          exact h

/-- Restocking never turns an untracked or missing product into a tracked
one. -/
theorem restockItems_stockOf_none (pid : ℕ) :
    ∀ (l : List OrderItem) (s : State), stockOf s pid = none →
      stockOf (restockItems s l) pid = none := by
  intro l
  induction l with
  | nil =>
    intro s h
    simpa [restockItems] using h
  | cons i l ih =>
    intro s h
    rw [restockItems]
    cases hfp : s.products.find? (fun x => x.id == i.productId) with
    | none => simp only [hfp]; exact ih s h
    | some q =>
      cases hqst : q.stockQuantity with
      | none => simp only [hfp, hqst]; exact ih s h
      | some stq =>
        simp only [hfp, hqst]
        by_cases hip : i.productId = pid
        · exfalso
          unfold stockOf at h
          rw [hip] at hfp
          rw [hfp] at h
          simp [hqst] at h
        · refine ih _ ?_
          rw [stockOf_updateFirst_other s i.productId pid hip i.qty]
          exact h

/-- Composing the non-gift filter with the per-product filter. -/
theorem filter_nonGift_pid (items : List OrderItem) (pid : ℕ) :
    (items.filter (fun i => !i.isFreeGift)).filter (fun i => i.productId == pid)
      = items.filter (fun i => !i.isFreeGift && i.productId == pid) := by
  induction items with
  | nil => rfl
  | cons a l ih =>
    cases h1 : a.isFreeGift <;> cases h2 : a.productId == pid <;>
      simp [List.filter_cons, h1, h2, ih]

/-- C6.  Updating an order's status to `cancelled` restocks its items at
most once: when the order is already cancelled or already restored the
products collection is untouched; otherwise every tracked product gains
exactly the summed quantity of the order's non-gift items referencing it,
untracked products stay untracked, and the order is stored with
`status = cancelled` and `stockRestored = true`. -/
theorem putOrderStatus_cancel_restocks_at_most_once (s : State) (oid : ℕ) (o : Order)
    (hfind : s.orders.find? (fun x => x.id == oid) = some o) :
    ((o.status = "cancelled" ∨ o.stockRestored = true) →
        (putOrderStatus s oid "cancelled").products = s.products)
    ∧ (o.status ≠ "cancelled" → o.stockRestored = false →
        (∀ pid st, stockOf s pid = some st →
            stockOf (putOrderStatus s oid "cancelled") pid = some (st + restockAmount o pid))
        ∧ (∀ pid, stockOf s pid = none →
            stockOf (putOrderStatus s oid "cancelled") pid = none)
        ∧ (putOrderStatus s oid "cancelled").orders.find? (fun x => x.id == oid) =
            some { o with status := "cancelled", stockRestored := true }) := by
  constructor
  · intro hdone
    have hc : (("cancelled" == "cancelled") && (o.status != "cancelled") && !o.stockRestored)
        = false := by
      rcases hdone with h | h
      · simp [h]
      · simp [h]
    rw [putOrderStatus, hfind]
    simp only [hc]
    rfl
  · intro h1 h2
    have hc : (("cancelled" == "cancelled") && (o.status != "cancelled") && !o.stockRestored)
        = true := by
      simp [h2, bne_iff_ne]
      exact h1
    refine ⟨?_, ?_, ?_⟩
    · intro pid st hst
      rw [putOrderStatus, hfind]
      simp only [hc]
      show stockOf (restockItems s (o.items.filter (fun i => !i.isFreeGift))) pid
        = some (st + restockAmount o pid)
      rw [restockItems_stockOf_some pid _ s st hst, restockAmount, filter_nonGift_pid]
    · intro pid hst
      rw [putOrderStatus, hfind]
      simp only [hc]
      show stockOf (restockItems s (o.items.filter (fun i => !i.isFreeGift))) pid = none
      exact restockItems_stockOf_none pid _ s hst
    · rw [putOrderStatus, hfind]
      simp only [hc]
      show (updateFirst (fun x => x.id == oid)
          (fun x => { x with status := "cancelled", stockRestored := true })
          (restockItems s (o.items.filter (fun i => !i.isFreeGift))).orders).find?
          (fun x => x.id == oid)
        = some { o with status := "cancelled", stockRestored := true }
      rw [restockItems_orders _ s]
      have hmap := find?_updateFirst_map (fun x : Order => x.id == oid)
        (fun x => { x with status := "cancelled", stockRestored := true })
        (fun x => rfl) s.orders
      rw [hmap, hfind]
      rfl

/-- A pending order for two units of product 1. -/
def exOrderPending : Order :=
  { id := 1, customerName := "N", phone := "123", block := "", villa := "", note := "",
    items := [exItem 1 2 7], total := 200, freeGift := false, paymentMethod := "cod",
    customerId := none, status := "pending", addedToUdhar := false, stockRestored := false,
    paid := false, createdAt := exNow }

/-- State holding that pending order over the two-product catalog. -/
def exOrderState : State := { exState with orders := [exOrderPending] }

/-- C6 witness: the cancellation theorem applied to the concrete pending
order. -/
theorem putOrderStatus_cancel_restocks_at_most_once_witness :
    (exOrderState.orders.find? (fun x => x.id == 1) = some exOrderPending)
    ∧ (((exOrderPending.status = "cancelled" ∨ exOrderPending.stockRestored = true) →
          (putOrderStatus exOrderState 1 "cancelled").products = exOrderState.products)
        ∧ (exOrderPending.status ≠ "cancelled" → exOrderPending.stockRestored = false →
            (∀ pid st, stockOf exOrderState pid = some st →
                stockOf (putOrderStatus exOrderState 1 "cancelled") pid =
                  some (st + restockAmount exOrderPending pid))
            ∧ (∀ pid, stockOf exOrderState pid = none →
                stockOf (putOrderStatus exOrderState 1 "cancelled") pid = none)
            ∧ (putOrderStatus exOrderState 1 "cancelled").orders.find?
                (fun x => x.id == 1) =
                some { exOrderPending with status := "cancelled", stockRestored := true })) :=
  ⟨rfl, putOrderStatus_cancel_restocks_at_most_once exOrderState 1 exOrderPending rfl⟩

/-! Lemmas about the migration adapter. -/

/-- A true `any` stays true after appending. -/
theorem any_append_left {p : α → Bool} {l : List α} (ext : List α) (h : l.any p = true) :
    (l ++ ext).any p = true := by
  rw [List.any_append, h, Bool.true_or]

/-- The credit half of the migration never touches the legacy stores. -/
theorem migrateCredits_stores (now : String) :
    ∀ (l : List UdharEntry) (s : State),
      (migrateCredits now s l).1.udharEntries = s.udharEntries
      ∧ (migrateCredits now s l).1.udharPayments = s.udharPayments := by
  intro l
  induction l with
  | nil => intro s; exact ⟨rfl, rfl⟩
  | cons e rest ih =>
    intro s
    cases hmig : legacyCreditMigrated s.ledger e.id with
    | true =>
      rw [migrateCredits, if_pos hmig]
      exact ih s
    | false =>
      rw [migrateCredits, if_neg (by simp [hmig])]
      exact ⟨(ih _).1, (ih _).2⟩

/-- The payment half of the migration never touches the legacy stores. -/
theorem migratePayments_stores (now : String) :
    ∀ (l : List UdharPayment) (s : State),
      (migratePayments now s l).1.udharEntries = s.udharEntries
      ∧ (migratePayments now s l).1.udharPayments = s.udharPayments := by
  intro l
  induction l with
  | nil => intro s; exact ⟨rfl, rfl⟩
  | cons p rest ih =>
    intro s
    cases hmig : legacyPaymentMigrated s.ledger p.id with
    | true =>
      rw [migratePayments, if_pos hmig]
      exact ih s
    | false =>
      rw [migratePayments, if_neg (by simp [hmig])]
      exact ⟨(ih _).1, (ih _).2⟩

/-- The credit half only appends to the ledger. -/
theorem migrateCredits_ledger_append (now : String) :
    ∀ (l : List UdharEntry) (s : State),
      ∃ ext, (migrateCredits now s l).1.ledger = s.ledger ++ ext := by
  intro l
  induction l with
  | nil => intro s; exact ⟨[], (List.append_nil _).symm⟩
  | cons e rest ih =>
    intro s
    cases hmig : legacyCreditMigrated s.ledger e.id with
    | true =>
      rw [migrateCredits, if_pos hmig]
      exact ih s
    | false =>
      rw [migrateCredits, if_neg (by simp [hmig])]
      obtain ⟨ext, hext⟩ := ih (migrateCreditStep now s e)
      refine ⟨creditEntryOf now (getNextId s "ledgerId").1 e :: ext, ?_⟩
      show (migrateCredits now (migrateCreditStep now s e) rest).1.ledger = _
      rw [hext]
      show ((getNextId s "ledgerId").2.ledger ++
        [creditEntryOf now (getNextId s "ledgerId").1 e]) ++ ext = _
      rw [List.append_assoc]
      rfl

/-- The payment half only appends to the ledger. -/
theorem migratePayments_ledger_append (now : String) :
    ∀ (l : List UdharPayment) (s : State),
      ∃ ext, (migratePayments now s l).1.ledger = s.ledger ++ ext := by
  intro l
  induction l with
  | nil => intro s; exact ⟨[], (List.append_nil _).symm⟩
  | cons p rest ih =>
    intro s
    cases hmig : legacyPaymentMigrated s.ledger p.id with
    | true =>
      rw [migratePayments, if_pos hmig]
      exact ih s
    | false =>
      rw [migratePayments, if_neg (by simp [hmig])]
      obtain ⟨ext, hext⟩ := ih (migratePaymentStep now s p)
      refine ⟨paymentEntryOf now (getNextId s "ledgerId").1 p :: ext, ?_⟩
      show (migratePayments now (migratePaymentStep now s p) rest).1.ledger = _
      rw [hext]
      show ((getNextId s "ledgerId").2.ledger ++
        [paymentEntryOf now (getNextId s "ledgerId").1 p]) ++ ext = _
      rw [List.append_assoc]
      rfl

/-- Ledger predicates true before the credit run stay true after it. -/
theorem flag_mono_credits (now : String) (l : List UdharEntry) (s : State)
    {p : LedgerEntry → Bool} (h : s.ledger.any p = true) :
    (migrateCredits now s l).1.ledger.any p = true := by
  obtain ⟨ext, he⟩ := migrateCredits_ledger_append now l s
  rw [he]
  exact any_append_left ext h

/-- Ledger predicates true before the payment run stay true after it. -/
theorem flag_mono_payments (now : String) (l : List UdharPayment) (s : State)
    {p : LedgerEntry → Bool} (h : s.ledger.any p = true) :
    (migratePayments now s l).1.ledger.any p = true := by
  obtain ⟨ext, he⟩ := migratePayments_ledger_append now l s
  rw [he]
  exact any_append_left ext h

/-- Inserting the migration entry for a legacy credit marks it migrated. -/
theorem migrateCreditStep_flag (now : String) (s : State) (e : UdharEntry) :
    legacyCreditMigrated (migrateCreditStep now s e).ledger e.id = true := by
  show legacyCreditMigrated ((getNextId s "ledgerId").2.ledger ++
    [creditEntryOf now (getNextId s "ledgerId").1 e]) e.id = true
  rw [legacyCreditMigrated, List.any_append]
  simp [creditEntryOf]

/-- Inserting the migration entry for a legacy payment marks it
migrated. -/
theorem migratePaymentStep_flag (now : String) (s : State) (p : UdharPayment) :
    legacyPaymentMigrated (migratePaymentStep now s p).ledger p.id = true := by
  show legacyPaymentMigrated ((getNextId s "ledgerId").2.ledger ++
    [paymentEntryOf now (getNextId s "ledgerId").1 p]) p.id = true
  rw [legacyPaymentMigrated, List.any_append]
  simp [paymentEntryOf]

/-- After the credit run, every processed legacy credit has a tagged
ledger entry. -/
theorem migrateCredits_complete (now : String) :
    ∀ (l : List UdharEntry) (s : State), ∀ e ∈ l,
      legacyCreditMigrated (migrateCredits now s l).1.ledger e.id = true := by
  intro l
  induction l with
  | nil =>
    intro s e he
    exact absurd he (List.not_mem_nil e)
  | cons a rest ih =>
    intro s e he
    cases hmig : legacyCreditMigrated s.ledger a.id with
    | true =>
      rw [migrateCredits, if_pos hmig]
      rcases List.mem_cons.mp he with h | h
      · subst h
        exact flag_mono_credits now rest s hmig
      · exact ih s e h
    | false =>
      rw [migrateCredits, if_neg (by simp [hmig])]
      show legacyCreditMigrated
        (migrateCredits now (migrateCreditStep now s a) rest).1.ledger e.id = true
      rcases List.mem_cons.mp he with h | h
      · subst h
        exact flag_mono_credits now rest _ (migrateCreditStep_flag now s _)
      · exact ih _ e h

/-- After the payment run, every processed legacy payment has a tagged
ledger entry. -/
theorem migratePayments_complete (now : String) :
    ∀ (l : List UdharPayment) (s : State), ∀ p ∈ l,
      legacyPaymentMigrated (migratePayments now s l).1.ledger p.id = true := by
  intro l
  induction l with
  | nil =>
    intro s p hp
    exact absurd hp (List.not_mem_nil p)
  | cons a rest ih =>
    intro s p hp
    cases hmig : legacyPaymentMigrated s.ledger a.id with
    | true =>
      rw [migratePayments, if_pos hmig]
      rcases List.mem_cons.mp hp with h | h
      · subst h
        exact flag_mono_payments now rest s hmig
      · exact ih s p h
    | false =>
      rw [migratePayments, if_neg (by simp [hmig])]
      show legacyPaymentMigrated
        (migratePayments now (migratePaymentStep now s a) rest).1.ledger p.id = true
      rcases List.mem_cons.mp hp with h | h
      · subst h
        exact flag_mono_payments now rest _ (migratePaymentStep_flag now s _)
      · exact ih _ p h

/-- The credit run is the identity with count 0 when every record is
already migrated. -/
theorem migrateCredits_skip (now : String) :
    ∀ (l : List UdharEntry) (s : State),
      (∀ e ∈ l, legacyCreditMigrated s.ledger e.id = true) →
      migrateCredits now s l = (s, 0) := by
  intro l
  induction l with
  | nil => intro s _; rfl
  | cons a rest ih =>
    intro s h
    rw [migrateCredits, if_pos (h a (List.mem_cons_self a rest))]
    exact ih s (fun e he => h e (List.mem_cons_of_mem a he))

/-- The payment run is the identity with count 0 when every record is
already migrated. -/
theorem migratePayments_skip (now : String) :
    ∀ (l : List UdharPayment) (s : State),
      (∀ p ∈ l, legacyPaymentMigrated s.ledger p.id = true) →
      migratePayments now s l = (s, 0) := by
  intro l
  induction l with
  | nil => intro s _; rfl
  | cons a rest ih =>
    intro s h
    rw [migratePayments, if_pos (h a (List.mem_cons_self a rest))]
    exact ih s (fun p hp => h p (List.mem_cons_of_mem a hp))

/-- Counting tagged entries distributes over ledger appends. -/
theorem countLegacyCredit_append (l ext : List LedgerEntry) (lid : ℕ) :
    countLegacyCredit (l ++ ext) lid = countLegacyCredit l lid + countLegacyCredit ext lid := by
  simp [countLegacyCredit, List.filter_append]

/-- Counting tagged payment entries distributes over ledger appends. -/
theorem countLegacyPayment_append (l ext : List LedgerEntry) (lid : ℕ) :
    countLegacyPayment (l ++ ext) lid = countLegacyPayment l lid + countLegacyPayment ext lid := by
  simp [countLegacyPayment, List.filter_append]

/-- A credit insert for a different legacy id does not change the tag
count of `lid`. -/
theorem countLegacyCredit_step_other (now : String) (s : State) (e : UdharEntry) (lid : ℕ)
    (hne : ¬ e.id = lid) :
    countLegacyCredit (migrateCreditStep now s e).ledger lid = countLegacyCredit s.ledger lid := by
  show countLegacyCredit ((getNextId s "ledgerId").2.ledger ++
    [creditEntryOf now (getNextId s "ledgerId").1 e]) lid = countLegacyCredit s.ledger lid
  rw [countLegacyCredit_append]
  have hz : countLegacyCredit [creditEntryOf now (getNextId s "ledgerId").1 e] lid = 0 := by
    simp [countLegacyCredit, creditEntryOf, hne]
  rw [hz]
  rfl

/-- A payment insert for a different legacy id does not change the tag
count of `lid`. -/
theorem countLegacyPayment_step_other (now : String) (s : State) (p : UdharPayment) (lid : ℕ)
    (hne : ¬ p.id = lid) :
    countLegacyPayment (migratePaymentStep now s p).ledger lid
      = countLegacyPayment s.ledger lid := by
  show countLegacyPayment ((getNextId s "ledgerId").2.ledger ++
    [paymentEntryOf now (getNextId s "ledgerId").1 p]) lid = countLegacyPayment s.ledger lid
  rw [countLegacyPayment_append]
  have hz : countLegacyPayment [paymentEntryOf now (getNextId s "ledgerId").1 p] lid = 0 := by
    simp [countLegacyPayment, paymentEntryOf, hne]
  rw [hz]
  rfl

/-- The credit run never adds a tagged entry for an id that already has
one. -/
theorem migrateCredits_count_preserved (now : String) :
    ∀ (l : List UdharEntry) (s : State) (lid : ℕ),
      legacyCreditMigrated s.ledger lid = true →
      countLegacyCredit (migrateCredits now s l).1.ledger lid
        = countLegacyCredit s.ledger lid := by
  intro l
  induction l with
  | nil => intro s lid _; rfl
  | cons a rest ih =>
    intro s lid h
    cases hmig : legacyCreditMigrated s.ledger a.id with
    | true =>
      rw [migrateCredits, if_pos hmig]
      exact ih s lid h
    | false =>
      rw [migrateCredits, if_neg (by simp [hmig])]
      show countLegacyCredit
        (migrateCredits now (migrateCreditStep now s a) rest).1.ledger lid
        = countLegacyCredit s.ledger lid
      have hne : ¬ a.id = lid := by
        intro hh
        rw [hh] at hmig
        rw [h] at hmig
        exact Bool.noConfusion hmig
      have hstep : legacyCreditMigrated (migrateCreditStep now s a).ledger lid = true := by
        show legacyCreditMigrated ((getNextId s "ledgerId").2.ledger ++
          [creditEntryOf now (getNextId s "ledgerId").1 a]) lid = true
        exact any_append_left _ h
      rw [ih _ lid hstep]
      exact countLegacyCredit_step_other now s a lid hne

/-- The payment run never adds a tagged entry for an id that already has
one. -/
theorem migratePayments_count_preserved (now : String) :
    ∀ (l : List UdharPayment) (s : State) (lid : ℕ),
      legacyPaymentMigrated s.ledger lid = true →
      countLegacyPayment (migratePayments now s l).1.ledger lid
        = countLegacyPayment s.ledger lid := by
  intro l
  induction l with
  | nil => intro s lid _; rfl
  | cons a rest ih =>
    intro s lid h
    cases hmig : legacyPaymentMigrated s.ledger a.id with
    | true =>
      rw [migratePayments, if_pos hmig]
      exact ih s lid h
    | false =>
      rw [migratePayments, if_neg (by simp [hmig])]
      show countLegacyPayment
        (migratePayments now (migratePaymentStep now s a) rest).1.ledger lid
        = countLegacyPayment s.ledger lid
      have hne : ¬ a.id = lid := by
        intro hh
        rw [hh] at hmig
        rw [h] at hmig
        exact Bool.noConfusion hmig
      have hstep : legacyPaymentMigrated (migratePaymentStep now s a).ledger lid = true := by
        show legacyPaymentMigrated ((getNextId s "ledgerId").2.ledger ++
          [paymentEntryOf now (getNextId s "ledgerId").1 a]) lid = true
        exact any_append_left _ h
      rw [ih _ lid hstep]
      exact countLegacyPayment_step_other now s a lid hne

/-- The payment run never touches credit-tagged counts. -/
theorem migratePayments_countCredit (now : String) :
    ∀ (l : List UdharPayment) (s : State) (lid : ℕ),
      countLegacyCredit (migratePayments now s l).1.ledger lid
        = countLegacyCredit s.ledger lid := by
  intro l
  induction l with
  | nil => intro s lid; rfl
  | cons a rest ih =>
    intro s lid
    cases hmig : legacyPaymentMigrated s.ledger a.id with
    | true =>
      rw [migratePayments, if_pos hmig]
      exact ih s lid
    | false =>
      rw [migratePayments, if_neg (by simp [hmig])]
      show countLegacyCredit
        (migratePayments now (migratePaymentStep now s a) rest).1.ledger lid
        = countLegacyCredit s.ledger lid
      rw [ih _ lid]
      show countLegacyCredit ((getNextId s "ledgerId").2.ledger ++
        [paymentEntryOf now (getNextId s "ledgerId").1 a]) lid = countLegacyCredit s.ledger lid
      rw [countLegacyCredit_append]
      have hz : countLegacyCredit [paymentEntryOf now (getNextId s "ledgerId").1 a] lid = 0 := by
        simp [countLegacyCredit, paymentEntryOf]
      rw [hz]
      rfl

/-- The credit run never touches payment-tagged counts. -/
theorem migrateCredits_countPayment (now : String) :
    ∀ (l : List UdharEntry) (s : State) (lid : ℕ),
      countLegacyPayment (migrateCredits now s l).1.ledger lid
        = countLegacyPayment s.ledger lid := by
  intro l
  induction l with
  | nil => intro s lid; rfl
  | cons a rest ih =>
    intro s lid
    cases hmig : legacyCreditMigrated s.ledger a.id with
    | true =>
      rw [migrateCredits, if_pos hmig]
      exact ih s lid
    | false =>
      rw [migrateCredits, if_neg (by simp [hmig])]
      show countLegacyPayment
        (migrateCredits now (migrateCreditStep now s a) rest).1.ledger lid
        = countLegacyPayment s.ledger lid
      rw [ih _ lid]
      show countLegacyPayment ((getNextId s "ledgerId").2.ledger ++
        [creditEntryOf now (getNextId s "ledgerId").1 a]) lid = countLegacyPayment s.ledger lid
      rw [countLegacyPayment_append]
      have hz : countLegacyPayment [creditEntryOf now (getNextId s "ledgerId").1 a] lid = 0 := by
        simp [countLegacyPayment, creditEntryOf]
      rw [hz]
      rfl

/-- C5.  POST /api/admin/migrate-to-ledger is idempotent: it never touches
the legacy stores, running it a second time returns the first run's state
unchanged with counts `(0, 0)`, a tagged ledger entry is created for a
legacy record only when none exists (ids already migrated gain no further
tagged entries), and after one run every legacy record has a tagged
entry. -/
theorem migrateLegacyToLedger_idempotent (s : State) (now now2 : String) :
    ((migrateLegacyToLedger s now).1.udharEntries = s.udharEntries)
    ∧ ((migrateLegacyToLedger s now).1.udharPayments = s.udharPayments)
    ∧ (migrateLegacyToLedger (migrateLegacyToLedger s now).1 now2
        = ((migrateLegacyToLedger s now).1, 0, 0))
    ∧ (∀ lid, legacyCreditMigrated s.ledger lid = true →
        countLegacyCredit (migrateLegacyToLedger s now).1.ledger lid
          = countLegacyCredit s.ledger lid)
    ∧ (∀ lid, legacyPaymentMigrated s.ledger lid = true →
        countLegacyPayment (migrateLegacyToLedger s now).1.ledger lid
          = countLegacyPayment s.ledger lid)
    ∧ (∀ e ∈ s.udharEntries,
        legacyCreditMigrated (migrateLegacyToLedger s now).1.ledger e.id = true)
    ∧ (∀ p ∈ s.udharPayments,
        legacyPaymentMigrated (migrateLegacyToLedger s now).1.ledger p.id = true) := by
  have hue : (migrateLegacyToLedger s now).1.udharEntries = s.udharEntries := by
    show (migratePayments now (migrateCredits now s s.udharEntries).1 s.udharPayments).1.udharEntries
      = s.udharEntries
    rw [(migratePayments_stores now s.udharPayments _).1,
      (migrateCredits_stores now s.udharEntries s).1]
  have hup : (migrateLegacyToLedger s now).1.udharPayments = s.udharPayments := by
    show (migratePayments now (migrateCredits now s s.udharEntries).1 s.udharPayments).1.udharPayments
      = s.udharPayments
    rw [(migratePayments_stores now s.udharPayments _).2,
      (migrateCredits_stores now s.udharEntries s).2]
  have hflagC : ∀ e ∈ s.udharEntries,
      legacyCreditMigrated (migrateLegacyToLedger s now).1.ledger e.id = true := by
    intro e he
    show legacyCreditMigrated
      (migratePayments now (migrateCredits now s s.udharEntries).1 s.udharPayments).1.ledger e.id
      = true
    exact flag_mono_payments now s.udharPayments _
      (migrateCredits_complete now s.udharEntries s e he)
  have hflagP : ∀ p ∈ s.udharPayments,
      legacyPaymentMigrated (migrateLegacyToLedger s now).1.ledger p.id = true := by
    intro p hp
    show legacyPaymentMigrated
      (migratePayments now (migrateCredits now s s.udharEntries).1 s.udharPayments).1.ledger p.id
      = true
    exact migratePayments_complete now s.udharPayments _ p hp
  have hskipC : migrateCredits now2 (migrateLegacyToLedger s now).1
      (migrateLegacyToLedger s now).1.udharEntries = ((migrateLegacyToLedger s now).1, 0) := by
    refine migrateCredits_skip now2 _ _ ?_
    intro e he
    rw [hue] at he
    exact hflagC e he
  have hskipP : migratePayments now2 (migrateLegacyToLedger s now).1
      (migrateLegacyToLedger s now).1.udharPayments = ((migrateLegacyToLedger s now).1, 0) := by
    refine migratePayments_skip now2 _ _ ?_
    intro p hp
    rw [hup] at hp
    exact hflagP p hp
  have hsecond : migrateLegacyToLedger (migrateLegacyToLedger s now).1 now2
      = ((migrateLegacyToLedger s now).1, 0, 0) := by
    show ((migratePayments now2
        (migrateCredits now2 (migrateLegacyToLedger s now).1
          (migrateLegacyToLedger s now).1.udharEntries).1
        (migrateLegacyToLedger s now).1.udharPayments).1,
      (migrateCredits now2 (migrateLegacyToLedger s now).1
          (migrateLegacyToLedger s now).1.udharEntries).2,
      (migratePayments now2
        (migrateCredits now2 (migrateLegacyToLedger s now).1
          (migrateLegacyToLedger s now).1.udharEntries).1
        (migrateLegacyToLedger s now).1.udharPayments).2)
      = ((migrateLegacyToLedger s now).1, 0, 0)
    rw [hskipC]
    show ((migratePayments now2 (migrateLegacyToLedger s now).1
        (migrateLegacyToLedger s now).1.udharPayments).1, 0,
      (migratePayments now2 (migrateLegacyToLedger s now).1
        (migrateLegacyToLedger s now).1.udharPayments).2)
      = ((migrateLegacyToLedger s now).1, 0, 0)
    rw [hskipP]
  refine ⟨hue, hup, hsecond, ?_, ?_, hflagC, hflagP⟩
  · intro lid h
    show countLegacyCredit
      (migratePayments now (migrateCredits now s s.udharEntries).1 s.udharPayments).1.ledger lid
      = countLegacyCredit s.ledger lid
    rw [migratePayments_countCredit now s.udharPayments _ lid]
    exact migrateCredits_count_preserved now s.udharEntries s lid h
  · intro lid h
    show countLegacyPayment
      (migratePayments now (migrateCredits now s s.udharEntries).1 s.udharPayments).1.ledger lid
      = countLegacyPayment s.ledger lid
    rw [migratePayments_count_preserved now s.udharPayments _ lid
      (flag_mono_credits now s.udharEntries s h)]
    exact migrateCredits_countPayment now s.udharEntries s lid

/-! Order-theoretic facts about the statement comparator. -/

/-- Code-point comparison is transitive. -/
theorem charListLt_trans : ∀ as bs cs : List Char,
    charListLt as bs = true → charListLt bs cs = true → charListLt as cs = true := by
  intro as
  induction as with
  | nil =>
    intro bs cs h1 h2
    cases bs with
    | nil => simp [charListLt] at h1
    | cons b bs2 =>
      cases cs with
      | nil => simp [charListLt] at h2
      | cons c cs2 => simp [charListLt]
  | cons a as2 ih =>
    intro bs cs h1 h2
    cases bs with
    | nil => simp [charListLt] at h1
    | cons b bs2 =>
      cases cs with
      | nil => simp [charListLt] at h2
      | cons c cs2 =>
        rw [charListLt] at h1 h2 ⊢
        by_cases hab : a < b
        · by_cases hbc : b < c
          · simp [lt_trans hab hbc]
          · rw [if_neg hbc] at h2
            by_cases hbc2 : b = c
            · subst hbc2
              simp [hab]
            · rw [if_neg hbc2] at h2
              exact absurd h2 (by simp)
        · rw [if_neg hab] at h1
          by_cases hab2 : a = b
          · subst hab2
            rw [if_pos rfl] at h1
            by_cases hac : a < c
            · simp [hac]
            · rw [if_neg hac] at h2
              by_cases hac2 : a = c
              · rw [if_pos hac2] at h2
                simp [hac, hac2, ih bs2 cs2 h1 h2]
              · rw [if_neg hac2] at h2
                exact absurd h2 (by simp)
          · rw [if_neg hab2] at h1
            exact absurd h1 (by simp)

/-- Code-point comparison is trichotomous. -/
theorem charListLt_trichotomy : ∀ as bs : List Char,
    charListLt as bs = true ∨ as = bs ∨ charListLt bs as = true := by
  intro as
  induction as with
  | nil =>
    intro bs
    cases bs with
    | nil => exact Or.inr (Or.inl rfl)
    | cons b bs2 => exact Or.inl (by simp [charListLt])
  | cons a as2 ih =>
    intro bs
    cases bs with
    | nil => exact Or.inr (Or.inr (by simp [charListLt]))
    | cons b bs2 =>
      rcases lt_trichotomy a b with h | h | h
      · exact Or.inl (by simp [charListLt, h])
      · subst h
        rcases ih bs2 with h2 | h2 | h2
        · exact Or.inl (by simp [charListLt, h2])
        · exact Or.inr (Or.inl (by rw [h2]))
        · exact Or.inr (Or.inr (by simp [charListLt, h2]))
      · exact Or.inr (Or.inr (by simp [charListLt, h]))

/-- String comparison is trichotomous. -/
theorem strLt_trichotomy (a b : String) :
    strLt a b = true ∨ a = b ∨ strLt b a = true := by
  rcases charListLt_trichotomy a.data b.data with h | h | h
  · exact Or.inl h
  · exact Or.inr (Or.inl (String.ext h))
  · exact Or.inr (Or.inr h)

instance : IsTotal StatementEntry entryLE := by
  constructor
  intro a b
  unfold entryLE entryLeB
  rcases strLt_trichotomy a.date b.date with h | h | h
  · exact Or.inl (by rw [h, Bool.true_or])
  · rcases strLt_trichotomy a.time b.time with h2 | h2 | h2
    · exact Or.inl (by simp [h, strLe, h2])
    · exact Or.inl (by simp [h, strLe, h2])
    · exact Or.inr (by simp [h, strLe, h2])
  · exact Or.inr (by rw [h, Bool.true_or])

instance : IsTrans StatementEntry entryLE := by
  constructor
  intro a b c h1 h2
  unfold entryLE entryLeB at h1 h2 ⊢
  rw [Bool.or_eq_true, Bool.and_eq_true] at h1 h2
  rw [Bool.or_eq_true]
  rcases h1 with h1 | ⟨h1d, h1t⟩
  · rcases h2 with h2 | ⟨h2d, h2t⟩
    · exact Or.inl (charListLt_trans _ _ _ h1 h2)
    · refine Or.inl ?_
      rw [← eq_of_beq h2d]
      exact h1
  · have h1d2 := eq_of_beq h1d
    rcases h2 with h2 | ⟨h2d, h2t⟩
    · refine Or.inl ?_
      rw [h1d2]
      exact h2
    · have h2d2 := eq_of_beq h2d
      refine Or.inr ?_
      rw [Bool.and_eq_true]
      refine ⟨by rw [h1d2, h2d2]; simp, ?_⟩
      unfold strLe at h1t h2t ⊢
      rw [Bool.or_eq_true] at h1t h2t ⊢
      rcases h1t with hl | he
      · rcases h2t with hl2 | he2
        · exact Or.inl (charListLt_trans _ _ _ hl hl2)
        · refine Or.inl ?_
          rw [← eq_of_beq he2]
          exact hl
      · rcases h2t with hl2 | he2
        · refine Or.inl ?_
          rw [eq_of_beq he]
          exact hl2
        · refine Or.inr ?_
          rw [eq_of_beq he]
          exact he2

/-- State with one September milk log (2 litres at 60) and one September
milk payment of 50 for customer 1. -/
def exMilkState : State :=
  { exCustState with
    milkLogs := [{ id := 1, customerId := 1, date := "2025-09-10", month := "2025-09",
                   qty := 2, price := 60, items := [],
                   markedAt := "2025-09-10T07:00:00.000Z" }],
    milkPayments := [{ customerId := 1, month := "2025-09", amount := 50, note := "",
                       paidAt := "2025-09-15T10:00:00.000Z" }] }

/-- C8.  Every monthly statement's merged entries are sorted ascending by
date then timestamp and its summary satisfies
`outstanding = milkTotal + orderTotal + udharTotal - paymentsTotal`; the
concrete scenario (one milk log of 2 litres at 60 and one payment of 50 in
the month) yields `milkTotal = 120`, `paymentsTotal = 50` and
`outstanding = 70`. -/
theorem buildStatement_sorted_and_outstanding :
    (∀ (s : State) (c : Customer) (month : String),
        List.Sorted entryLE (buildStatement s c month).1
        ∧ (buildStatement s c month).2.outstanding
            = (buildStatement s c month).2.milkTotal + (buildStatement s c month).2.orderTotal
              + (buildStatement s c month).2.udharTotal
              - (buildStatement s c month).2.paymentsTotal)
    ∧ (buildStatement exMilkState exCustomer "2025-09").2
        = { milkTotal := 120, orderTotal := 0, udharTotal := 0, paymentsTotal := 50,
            totalDebits := 120, outstanding := 70 } := by
  constructor
  · intro s c month
    exact ⟨List.sorted_insertionSort entryLE _, rfl⟩
  · rfl

/-! Checkout-loop state machinery: the loop touches only product stock
levels. -/

/-- Two product documents equal in everything the pricing path reads
(only `stockQuantity` and `lowStockThreshold` may differ). -/
def samePricing (p q : Product) : Prop :=
  p.id = q.id ∧ p.name = q.name ∧ p.disabled = q.disabled ∧ p.variants = q.variants
    ∧ p.unit = q.unit ∧ p.priceTiersLegacy = q.priceTiersLegacy
    ∧ p.inStockLegacy = q.inStockLegacy

theorem samePricing_refl (p : Product) : samePricing p p :=
  ⟨rfl, rfl, rfl, rfl, rfl, rfl, rfl⟩

theorem samePricing_trans {p q r : Product} (h1 : samePricing p q) (h2 : samePricing q r) :
    samePricing p r := by
  obtain ⟨a1, a2, a3, a4, a5, a6, a7⟩ := h1
  obtain ⟨b1, b2, b3, b4, b5, b6, b7⟩ := h2
  exact ⟨a1.trans b1, a2.trans b2, a3.trans b3, a4.trans b4, a5.trans b5,
    a6.trans b6, a7.trans b7⟩

/-- The pricing resolution reads only the `samePricing` fields. -/
theorem serverUnitPrice_congr {p q : Product} (h : samePricing p q)
    (variantId : String) (qty : ℤ) :
    serverUnitPrice p variantId qty = serverUnitPrice q variantId qty := by
  obtain ⟨_, _, _, h4, h5, h6, h7⟩ := h
  unfold serverUnitPrice migrateProduct
  cases hv : q.variants with
  | some vs => simp only [h4, hv]
  | none => simp only [h4, h5, h6, h7, hv]

theorem forall₂_samePricing_refl (l : List Product) : List.Forall₂ samePricing l l := by
  induction l with
  | nil => exact List.Forall₂.nil
  | cons a l ih => exact List.Forall₂.cons (samePricing_refl a) ih

theorem forall₂_samePricing_trans :
    ∀ {l1 l2 l3 : List Product}, List.Forall₂ samePricing l1 l2 →
      List.Forall₂ samePricing l2 l3 → List.Forall₂ samePricing l1 l3 := by
  intro l1
  induction l1 with
  | nil =>
    intro l2 l3 h1 h2
    cases h1
    cases h2
    exact List.Forall₂.nil
  | cons a l ih =>
    intro l2 l3 h1 h2
    cases h1 with
    | cons hab h1t =>
      cases h2 with
      | cons hbc h2t => exact List.Forall₂.cons (samePricing_trans hab hbc) (ih h1t h2t)

/-- `updateFirst` with a pricing-preserving function relates the list to
its update. -/
theorem forall₂_updateFirst (pb : Product → Bool) (f : Product → Product)
    (hf : ∀ x, samePricing x (f x)) :
    ∀ l : List Product, List.Forall₂ samePricing l (updateFirst pb f l) := by
  intro l
  induction l with
  | nil => exact List.Forall₂.nil
  | cons a l ih =>
    by_cases ha : pb a
    · rw [updateFirst, if_pos ha]
      exact List.Forall₂.cons (hf a) (forall₂_samePricing_refl l)
    · rw [updateFirst, if_neg ha]
      exact List.Forall₂.cons (samePricing_refl a) ih

/-- `find?` by product id transfers along `samePricing`-related lists. -/
theorem find?_forall₂ (pid : ℕ) :
    ∀ {l l' : List Product}, List.Forall₂ samePricing l l' →
      (l.find? (fun p => p.id == pid) = none ∧ l'.find? (fun p => p.id == pid) = none)
      ∨ (∃ p q, l.find? (fun p => p.id == pid) = some p
          ∧ l'.find? (fun p => p.id == pid) = some q ∧ samePricing p q) := by
  intro l
  induction l with
  | nil =>
    intro l' h
    cases h
    exact Or.inl ⟨rfl, rfl⟩
  | cons a l ih =>
    intro l' h
    cases h with
    | cons hab ht =>
      rename_i b l2
      by_cases hp : a.id == pid
      · have hpb : b.id == pid := by
          rw [← hab.1]
          exact hp
        refine Or.inr ⟨a, b, ?_, ?_, hab⟩
        · exact List.find?_cons_of_pos _ hp
        · exact List.find?_cons_of_pos _ hpb
      · have hpb : ¬ (b.id == pid : Bool) := by
          rw [← hab.1]
          exact hp
        have h1 : (a :: l).find? (fun p => p.id == pid) = l.find? (fun p => p.id == pid) :=
          List.find?_cons_of_neg _ hp
        have h2 : (b :: l2).find? (fun p => p.id == pid) = l2.find? (fun p => p.id == pid) :=
          List.find?_cons_of_neg _ hpb
        rw [h1, h2]
        exact ih ht

/-- Two states equal everywhere except that products may differ in their
stock levels. -/
def sameExceptStock (s s1 : State) : Prop :=
  List.Forall₂ samePricing s.products s1.products
    ∧ s1.counters = s.counters ∧ s1.customers = s.customers ∧ s1.orders = s.orders
    ∧ s1.ledger = s.ledger ∧ s1.udharEntries = s.udharEntries
    ∧ s1.udharPayments = s.udharPayments ∧ s1.milkLogs = s.milkLogs
    ∧ s1.milkPayments = s.milkPayments ∧ s1.settings = s.settings

theorem sameExceptStock_refl (s : State) : sameExceptStock s s :=
  ⟨forall₂_samePricing_refl s.products, rfl, rfl, rfl, rfl, rfl, rfl, rfl, rfl, rfl⟩

theorem sameExceptStock_trans {s1 s2 s3 : State}
    (h1 : sameExceptStock s1 s2) (h2 : sameExceptStock s2 s3) : sameExceptStock s1 s3 := by
  obtain ⟨a0, a1, a2, a3, a4, a5, a6, a7, a8, a9⟩ := h1
  obtain ⟨b0, b1, b2, b3, b4, b5, b6, b7, b8, b9⟩ := h2
  exact ⟨forall₂_samePricing_trans a0 b0, b1.trans a1, b2.trans a2, b3.trans a3,
    b4.trans a4, b5.trans a5, b6.trans a6, b7.trans a7, b8.trans a8, b9.trans a9⟩

/-- Inverting a successful conditional decrement. -/
theorem conditionalDecrement_eq {s : State} {pid : ℕ} {qty : ℤ} {s1 : State}
    (h : conditionalDecrement s pid qty = some s1) :
    s.products.any (condStockMatch pid qty) = true
    ∧ s1 = { s with products :=
        (updateFirst (condStockMatch pid qty)
          (fun p => { p with stockQuantity := p.stockQuantity.map (fun st => st - qty) })
          s.products) } := by
  by_cases hc : s.products.any (condStockMatch pid qty)
  · rw [conditionalDecrement, if_pos hc] at h
    exact ⟨hc, (Option.some.injEq _ _ ▸ h).symm⟩
  · rw [conditionalDecrement, if_neg hc] at h
    exact absurd h (by simp)

/-- A successful conditional decrement only changes stock levels. -/
theorem conditionalDecrement_sameExceptStock {s : State} {pid : ℕ} {qty : ℤ} {s1 : State}
    (h : conditionalDecrement s pid qty = some s1) : sameExceptStock s s1 := by
  obtain ⟨_, hs1⟩ := conditionalDecrement_eq h
  subst hs1
  refine ⟨?_, rfl, rfl, rfl, rfl, rfl, rfl, rfl, rfl, rfl⟩
  exact forall₂_updateFirst (condStockMatch pid qty)
    (fun p => { p with stockQuantity := p.stockQuantity.map (fun st => st - qty) })
    (fun x => ⟨rfl, rfl, rfl, rfl, rfl, rfl, rfl⟩) s.products

/-- A successful reservation only changes stock levels. -/
theorem reserveStock_sameExceptStock {s : State} {product : Product} {item : OrderItem}
    {s1 : State} (h : reserveStock s product item = Except.ok s1) : sameExceptStock s s1 := by
  unfold reserveStock at h
  cases hst : product.stockQuantity with
  | none =>
    rw [hst] at h
    cases h
    exact sameExceptStock_refl s
  | some st =>
    simp only [hst] at h
    by_cases h0 : st = 0
    · rw [if_pos h0] at h
      exact absurd h (by simp)
    · rw [if_neg h0] at h
      by_cases hlt : st < item.qty
      · rw [if_pos hlt] at h
        exact absurd h (by simp)
      · rw [if_neg hlt] at h
        cases hcd : conditionalDecrement s item.productId item.qty with
        | none =>
          rw [hcd] at h
          exact absurd h (by simp)
        | some s2 =>
          rw [hcd] at h
          cases h
          exact conditionalDecrement_sameExceptStock hcd

/-- The whole checkout loop only changes stock levels, whatever its
outcome. -/
theorem processOrderItems_sameExceptStock :
    ∀ (l : List OrderItem) (s : State) (t : ℤ) (acc : List OrderItem),
      sameExceptStock s (processOrderItems s t acc l).1 := by
  intro l
  induction l with
  | nil => intro s t acc; exact sameExceptStock_refl s
  | cons i rest ih =>
    intro s t acc
    rw [processOrderItems]
    cases hf : s.products.find? (fun p => p.id == i.productId) with
    | none =>
      simp only [hf]
      exact ih s t acc
    | some product =>
      simp only [hf]
      by_cases hd : product.disabled
      · rw [if_pos hd]
        exact sameExceptStock_refl s
      · rw [if_neg hd]
        cases hres : reserveStock s product i with
        | error e =>
          simp only [hres]
          exact sameExceptStock_refl s
        | ok s1 =>
          simp only [hres]
          exact sameExceptStock_trans (reserveStock_sameExceptStock hres) (ih s1 _ _)

/-- Membership in an `updateFirst` result comes from the original list,
possibly through the update function applied to a matching element. -/
theorem mem_updateFirst {pb : α → Bool} {f : α → α} :
    ∀ {l : List α} {x : α}, x ∈ updateFirst pb f l →
      x ∈ l ∨ ∃ y, y ∈ l ∧ pb y = true ∧ x = f y := by
  intro l
  induction l with
  | nil =>
    intro x hx
    exact absurd hx (List.not_mem_nil x)
  | cons a l ih =>
    intro x hx
    by_cases ha : pb a
    · rw [updateFirst, if_pos ha] at hx
      rcases List.mem_cons.mp hx with h | h
      · exact Or.inr ⟨a, List.mem_cons_self a l, ha, h⟩
      · exact Or.inl (List.mem_cons_of_mem a h)
    · rw [updateFirst, if_neg ha] at hx
      rcases List.mem_cons.mp hx with h | h
      · exact Or.inl (by rw [h]; exact List.mem_cons_self a l)
      · rcases ih h with h2 | ⟨y, hy, hpy, hxy⟩
        · exact Or.inl (List.mem_cons_of_mem a h2)
        · exact Or.inr ⟨y, List.mem_cons_of_mem a hy, hpy, hxy⟩

/-- A successful conditional decrement keeps every stock non-negative:
the write only happens when the decremented document still had at least
the requested quantity. -/
theorem conditionalDecrement_nonneg {s : State} {pid : ℕ} {qty : ℤ} {s1 : State}
    (hinv : allStocksNonneg s) (h : conditionalDecrement s pid qty = some s1) :
    allStocksNonneg s1 := by
  obtain ⟨_, hs1⟩ := conditionalDecrement_eq h
  subst hs1
  intro p hp q hq
  rcases mem_updateFirst hp with hmem | ⟨y, hy, hpy, hxy⟩
  · exact hinv p hmem q hq
  · subst hxy
    unfold condStockMatch at hpy
    rw [Bool.and_eq_true] at hpy
    obtain ⟨_, hst⟩ := hpy
    cases hyq : y.stockQuantity with
    | none =>
      rw [hyq] at hst
      exact absurd hst (by simp)
    | some st =>
      rw [hyq] at hst
      have hle : qty ≤ st := of_decide_eq_true hst
      have hq2 : y.stockQuantity.map (fun v => v - qty) = some q := hq
      rw [hyq] at hq2
      simp at hq2
      omega

/-- A successful reservation keeps every stock non-negative. -/
theorem reserveStock_nonneg {s : State} {product : Product} {item : OrderItem} {s1 : State}
    (hinv : allStocksNonneg s) (h : reserveStock s product item = Except.ok s1) :
    allStocksNonneg s1 := by
  unfold reserveStock at h
  cases hst : product.stockQuantity with
  | none =>
    rw [hst] at h
    cases h
    exact hinv
  | some st =>
    simp only [hst] at h
    by_cases h0 : st = 0
    · rw [if_pos h0] at h
      exact absurd h (by simp)
    · rw [if_neg h0] at h
      by_cases hlt : st < item.qty
      · rw [if_pos hlt] at h
        exact absurd h (by simp)
      · rw [if_neg hlt] at h
        cases hcd : conditionalDecrement s item.productId item.qty with
        | none =>
          rw [hcd] at h
          exact absurd h (by simp)
        | some s2 =>
          rw [hcd] at h
          cases h
          exact conditionalDecrement_nonneg hinv hcd

/-- The checkout loop keeps every stock non-negative, whatever its
outcome. -/
theorem processOrderItems_nonneg :
    ∀ (l : List OrderItem) (s : State) (t : ℤ) (acc : List OrderItem),
      allStocksNonneg s → allStocksNonneg (processOrderItems s t acc l).1 := by
  intro l
  induction l with
  | nil =>
    intro s t acc h
    exact h
  | cons i rest ih =>
    intro s t acc h
    rw [processOrderItems]
    cases hf : s.products.find? (fun p => p.id == i.productId) with
    | none =>
      simp only [hf]
      exact ih s t acc h
    | some product =>
      simp only [hf]
      by_cases hd : product.disabled
      · rw [if_pos hd]
        exact h
      · rw [if_neg hd]
        cases hres : reserveStock s product i with
        | error e =>
          simp only [hres]
          exact h
        | ok s1 =>
          simp only [hres]
          exact ih s1 _ _ (reserveStock_nonneg h hres)

/-- The order-finalization step never touches the products collection. -/
theorem finalizeOrder_products (s1 : State) (req : OrderReq) (T : ℤ)
    (v : List OrderItem) (now : String) :
    (finalizeOrder s1 req T v now).1.products = s1.products := by
  simp only [finalizeOrder]
  cases hcust : ((getNextId s1 "orderId").2).customers.find? (fun c => c.phone == req.phone) with
  | none => rfl
  | some c =>
    cases hacc : req.paymentMethod == "account" with
    | false => rfl
    | true => rfl

/-- `placeOrder` either keeps the original products or those of the
checkout loop. -/
theorem placeOrder_products_cases (s : State) (req : OrderReq) (now : String) :
    (placeOrder s req now).1.products
      = (processOrderItems s 0 [] (req.items.filter (fun i => !i.isFreeGift))).1.products
    ∨ (placeOrder s req now).1.products = s.products := by
  unfold placeOrder
  split
  · exact Or.inr rfl
  · split
    · rename_i s1 e heq
      left
      rw [heq]
    · rename_i s1 T v heq
      left
      rw [finalizeOrder_products, heq]

/-- POST /api/orders keeps every stock non-negative. -/
theorem placeOrder_nonneg (s : State) (req : OrderReq) (now : String)
    (h : allStocksNonneg s) : allStocksNonneg (placeOrder s req now).1 := by
  rcases placeOrder_products_cases s req now with h1 | h1
  · have h2 := processOrderItems_nonneg (req.items.filter (fun i => !i.isFreeGift)) s 0 [] h
    intro p hp q hq
    rw [h1] at hp
    exact h2 p hp q hq
  · intro p hp q hq
    rw [h1] at hp
    exact h p hp q hq

/-- The admin stock endpoint keeps every stock non-negative (all written
values are clamped with `Math.max(0, ...)`). -/
theorem patchStock_nonneg (s : State) (pid : ℕ) (sq th adj : Option ℤ)
    (h : allStocksNonneg s) : allStocksNonneg (patchStock s pid sq th adj) := by
  unfold patchStock
  cases hf : s.products.find? (fun p => p.id == pid) with
  | none => exact h
  | some product =>
    intro p hp q hq
    rcases mem_updateFirst hp with hmem | ⟨y, hy, _, hxy⟩
    · exact h p hmem q hq
    · subst hxy
      cases adj with
      | some a =>
        cases th with
        | some t =>
          have hq2 : some (max 0 (product.stockQuantity.getD 0 + a)) = some q := hq
          rw [Option.some_inj] at hq2
          rw [← hq2]
          exact le_max_left 0 _
        | none =>
          have hq2 : some (max 0 (product.stockQuantity.getD 0 + a)) = some q := hq
          rw [Option.some_inj] at hq2
          rw [← hq2]
          exact le_max_left 0 _
      | none =>
        cases sq with
        | some v =>
          cases th with
          | some t =>
            have hq2 : some (max 0 v) = some q := hq
            rw [Option.some_inj] at hq2
            rw [← hq2]
            exact le_max_left 0 _
          | none =>
            have hq2 : some (max 0 v) = some q := hq
            rw [Option.some_inj] at hq2
            rw [← hq2]
            exact le_max_left 0 _
        | none =>
          cases th with
          | some t =>
            have hq2 : y.stockQuantity = some q := hq
            exact h y hy q hq2
          | none =>
            have hq2 : y.stockQuantity = some q := hq
            exact h y hy q hq2

/-- The restock loop keeps every stock non-negative when the restored
quantities are non-negative. -/
theorem restockItems_nonneg :
    ∀ (l : List OrderItem) (s : State), (∀ i ∈ l, (0:ℤ) ≤ i.qty) →
      allStocksNonneg s → allStocksNonneg (restockItems s l) := by
  intro l
  induction l with
  | nil =>
    intro s _ h
    exact h
  | cons i rest ih =>
    intro s hqty h
    rw [restockItems]
    cases hf : s.products.find? (fun p => p.id == i.productId) with
    | none =>
      simp only [hf]
      exact ih s (fun j hj => hqty j (List.mem_cons_of_mem i hj)) h
    | some product =>
      cases hst : product.stockQuantity with
      | none =>
        simp only [hf, hst]
        exact ih s (fun j hj => hqty j (List.mem_cons_of_mem i hj)) h
      | some st =>
        simp only [hf, hst]
        refine ih _ (fun j hj => hqty j (List.mem_cons_of_mem i hj)) ?_
        intro p hp q hq
        rcases mem_updateFirst hp with hmem | ⟨y, hy, _, hxy⟩
        · exact h p hmem q hq
        · subst hxy
          have hq2 : y.stockQuantity.map (fun v => v + i.qty) = some q := hq
          cases hyq : y.stockQuantity with
          | none =>
            rw [hyq] at hq2
            exact absurd hq2 (by simp)
          | some sty =>
            rw [hyq] at hq2
            simp at hq2
            have h0 : (0:ℤ) ≤ sty := h y hy sty hyq
            have hiq : (0:ℤ) ≤ i.qty := hqty i (List.mem_cons_self i rest)
            omega

/-- The status update either keeps the products or replaces them with the
restock loop's result for the found order. -/
theorem putOrderStatus_products_cases (s : State) (oid : ℕ) (newStatus : String) :
    (putOrderStatus s oid newStatus).products = s.products
    ∨ ∃ o, s.orders.find? (fun x => x.id == oid) = some o
        ∧ (putOrderStatus s oid newStatus).products
            = (restockItems s (o.items.filter (fun i => !i.isFreeGift))).products := by
  cases hf0 : s.orders.find? (fun o => o.id == oid) with
  | none =>
    left
    rw [putOrderStatus, hf0]
  | some o =>
    cases hcb : (newStatus == "cancelled" && o.status != "cancelled" && !o.stockRestored) with
    | false =>
      left
      rw [putOrderStatus, hf0]
      simp only [hcb]
      rfl
    | true =>
      right
      refine ⟨o, rfl, ?_⟩
      rw [putOrderStatus, hf0]
      simp only [hcb]
      rfl

/-- The status-update endpoint keeps every stock non-negative when every
stored order item has a non-negative quantity. -/
theorem putOrderStatus_nonneg (s : State) (oid : ℕ) (newStatus : String)
    (horders : ∀ o ∈ s.orders, ∀ i ∈ o.items, (0:ℤ) ≤ i.qty)
    (h : allStocksNonneg s) : allStocksNonneg (putOrderStatus s oid newStatus) := by
  rcases putOrderStatus_products_cases s oid newStatus with hp1 | ⟨o, hf, hp1⟩
  · intro p hp q hq
    rw [hp1] at hp
    exact h p hp q hq
  · have hmem : o ∈ s.orders := List.mem_of_find?_eq_some hf
    have hq0 : ∀ i ∈ o.items.filter (fun i => !i.isFreeGift), (0:ℤ) ≤ i.qty :=
      fun i hi => horders o hmem i (List.mem_of_mem_filter hi)
    have h1 := restockItems_nonneg _ s hq0 h
    intro p hp q hq
    rw [hp1] at hp
    exact h1 p hp q hq

/-- The conditional write succeeds only when some document with the
requested id still holds at least the requested quantity. -/
theorem conditionalDecrement_requires_stock {s : State} {pid : ℕ} {qty : ℤ} {s1 : State}
    (h : conditionalDecrement s pid qty = some s1) :
    ∃ p ∈ s.products, p.id = pid ∧ ∃ st, p.stockQuantity = some st ∧ qty ≤ st := by
  obtain ⟨hany, _⟩ := conditionalDecrement_eq h
  rw [List.any_eq_true] at hany
  obtain ⟨p, hp, hcond⟩ := hany
  unfold condStockMatch at hcond
  rw [Bool.and_eq_true] at hcond
  obtain ⟨hid, hst⟩ := hcond
  cases hq : p.stockQuantity with
  | none =>
    rw [hq] at hst
    exact absurd hst (by simp)
  | some st =>
    rw [hq] at hst
    exact ⟨p, hp, by rwa [beq_iff_eq] at hid, st, hq, of_decide_eq_true hst⟩

/-- C3 amended.  From any state whose tracked stocks are non-negative,
checkout reservation and the admin stock endpoint preserve
non-negativity unconditionally; cancellation restock preserves it
provided every stored order item has a non-negative quantity (an order
placed with a negative quantity can break it, see the counterexample);
and the conditional decrement succeeds only when a document with the
requested id still holds at least the requested quantity. -/
theorem stock_nonneg_preserved (s : State) (hinv : allStocksNonneg s) :
    (∀ req now, allStocksNonneg (placeOrder s req now).1)
    ∧ (∀ pid sq th adj, allStocksNonneg (patchStock s pid sq th adj))
    ∧ ((∀ o ∈ s.orders, ∀ i ∈ o.items, (0:ℤ) ≤ i.qty) →
        ∀ oid newStatus, allStocksNonneg (putOrderStatus s oid newStatus))
    ∧ (∀ pid qty s1, conditionalDecrement s pid qty = some s1 →
        ∃ p ∈ s.products, p.id = pid ∧ ∃ st, p.stockQuantity = some st ∧ qty ≤ st) := by
  refine ⟨?_, ?_, ?_, ?_⟩
  · intro req now
    exact placeOrder_nonneg s req now hinv
  · intro pid sq th adj
    exact patchStock_nonneg s pid sq th adj hinv
  · intro horders oid newStatus
    exact putOrderStatus_nonneg s oid newStatus horders hinv
  · intro pid qty s1 hcd
    exact conditionalDecrement_requires_stock hcd

/-- C3 amended, witness: the preservation theorem applied to the concrete
two-product catalog state. -/
theorem stock_nonneg_preserved_witness :
    allStocksNonneg exState
    ∧ ((∀ req now, allStocksNonneg (placeOrder exState req now).1)
      ∧ (∀ pid sq th adj, allStocksNonneg (patchStock exState pid sq th adj))
      ∧ ((∀ o ∈ exState.orders, ∀ i ∈ o.items, (0:ℤ) ≤ i.qty) →
          ∀ oid newStatus, allStocksNonneg (putOrderStatus exState oid newStatus))
      ∧ (∀ pid qty s1, conditionalDecrement exState pid qty = some s1 →
          ∃ p ∈ exState.products, p.id = pid ∧ ∃ st, p.stockQuantity = some st ∧ qty ≤ st)) :=
  ⟨by decide, stock_nonneg_preserved exState (by decide)⟩

/-- Shifting the initial accumulator out of the server-line-total fold. -/
theorem foldl_slt_init (s0 : State) :
    ∀ (l : List OrderItem) (t : ℤ),
      l.foldl (fun a i => a + serverLineTotal s0 i) t
        = t + l.foldl (fun a i => a + serverLineTotal s0 i) 0 := by
  intro l
  induction l with
  | nil => intro t; simp
  | cons a l ih =>
    intro t
    rw [List.foldl_cons, List.foldl_cons, ih (t + serverLineTotal s0 a),
      ih (0 + serverLineTotal s0 a)]
    ring

/-- The accepted checkout loop accumulates exactly the server-side line
totals of the processed items, priced against the initial catalog. -/
theorem processOrderItems_total (s0 : State) :
    ∀ (l : List OrderItem) (s : State) (t : ℤ) (acc : List OrderItem)
      (s2 : State) (T : ℤ) (v : List OrderItem),
      sameExceptStock s0 s →
      (∀ i ∈ l, (s0.products.find? (fun p => p.id == i.productId)).isSome) →
      processOrderItems s t acc l = (s2, Except.ok (T, v)) →
      T = t + l.foldl (fun a i => a + serverLineTotal s0 i) 0 := by
  intro l
  induction l with
  | nil =>
    intro s t acc s2 T v hse hsome heq
    rw [processOrderItems] at heq
    simp only [Prod.mk.injEq, Except.ok.injEq] at heq
    obtain ⟨_, hT, _⟩ := heq
    simp [← hT]
  | cons i rest ih =>
    intro s t acc s2 T v hse hsome heq
    have hs0 : (s0.products.find? (fun p => p.id == i.productId)).isSome :=
      hsome i (List.mem_cons_self i rest)
    rcases find?_forall₂ i.productId hse.1 with ⟨hn0, _⟩ | ⟨p0, q, hp0, hq, hpq⟩
    · rw [hn0] at hs0
      exact absurd hs0 (by simp)
    · rw [processOrderItems] at heq
      simp only [hq] at heq
      by_cases hd : q.disabled
      · rw [if_pos hd] at heq
        exact absurd heq (by simp)
      · rw [if_neg hd] at heq
        cases hres : reserveStock s q i with
        | error e =>
          simp only [hres] at heq
          exact absurd heq (by simp)
        | ok s1 =>
          simp only [hres] at heq
          have hse1 : sameExceptStock s0 s1 :=
            sameExceptStock_trans hse (reserveStock_sameExceptStock hres)
          have hrest := ih s1 _ _ s2 T v hse1
            (fun j hj => hsome j (List.mem_cons_of_mem i hj)) heq
          have hpr : serverUnitPrice q i.variantId i.qty
              = serverUnitPrice p0 i.variantId i.qty :=
            (serverUnitPrice_congr hpq i.variantId i.qty).symm
          have hline : serverLineTotal s0 i
              = serverUnitPrice p0 i.variantId i.qty * i.qty := by
            unfold serverLineTotal
            rw [hp0]
          rw [List.foldl_cons, foldl_slt_init s0 rest (0 + serverLineTotal s0 i),
            hrest, hpr, hline]
          ring

/-- The total stored by the finalization step is the re-priced cart total
with the gift discount. -/
theorem finalizeOrder_ok_total (s1 : State) (req : OrderReq) (T : ℤ)
    (v : List OrderItem) (now : String) (s2 : State) (ord : Order)
    (h : finalizeOrder s1 req T v now = (s2, Except.ok ord)) :
    ord.total = toFixed2 (if req.freeGift then T + s1.settings.freeGiftDiscountPrice else T) := by
  simp only [finalizeOrder] at h
  cases hcust : ((getNextId s1 "orderId").2).customers.find? (fun c => c.phone == req.phone) with
  | none =>
    simp only [hcust, Prod.mk.injEq, Except.ok.injEq] at h
    obtain ⟨_, hord⟩ := h
    rw [← hord]
  | some c =>
    cases hacc : req.paymentMethod == "account" with
    | false =>
      simp only [hcust, hacc, Prod.mk.injEq, Except.ok.injEq] at h
      obtain ⟨_, hord⟩ := h
      rw [← hord]
    | true =>
      simp only [hcust, hacc, Prod.mk.injEq, Except.ok.injEq] at h
      obtain ⟨_, hord⟩ := h
      rw [← hord]

/-- C4.  The total stored on every accepted order is the server-side cart
total — the sum of server-resolved tier price times quantity over the
non-gift items plus the configured gift discount — independently of the
client-submitted per-item prices, which `serverCartTotal` never reads. -/
theorem placeOrder_total_server_priced (s : State) (req : OrderReq) (now : String)
    (s2 : State) (ord : Order)
    (hplace : placeOrder s req now = (s2, Except.ok ord))
    (hfound : ∀ i ∈ req.items, i.isFreeGift = false →
        (s.products.find? (fun p => p.id == i.productId)).isSome) :
    ord.total = toFixed2 (serverCartTotal s req.items req.freeGift) := by
  unfold placeOrder at hplace
  split at hplace
  · exact absurd hplace (by simp)
  · split at hplace
    · exact absurd hplace (by simp)
    · rename_i s1 T v heq
      have hsome : ∀ i ∈ req.items.filter (fun i => !i.isFreeGift),
          (s.products.find? (fun p => p.id == i.productId)).isSome := by
        intro i hi
        have hmem := List.mem_of_mem_filter hi
        have hng := List.of_mem_filter hi
        refine hfound i hmem ?_
        simpa using hng
      have hT := processOrderItems_total s (req.items.filter (fun i => !i.isFreeGift))
        s 0 [] s1 T v (sameExceptStock_refl s) hsome heq
      have hstate := processOrderItems_sameExceptStock
        (req.items.filter (fun i => !i.isFreeGift)) s 0 []
      rw [heq] at hstate
      obtain ⟨_, _, _, _, _, _, _, _, _, hset⟩ := hstate
      have htot := finalizeOrder_ok_total s1 req T v now s2 ord hplace
      rw [htot, hset, hT]
      unfold serverCartTotal
      cases hg : req.freeGift
      · simp
      · simp

/-- Cart with client-submitted price 1 for product 1, whose server tier
price is 100. -/
def exReqPrice1 : OrderReq :=
  { customerName := "N", phone := "123", block := "", villa := "", note := "",
    items := [exItem 1 1 1], freeGift := false, paymentMethod := "" }

/-- The order the server stores for that cart: the item re-priced to 100
and a total of 100. -/
def exPlacedOrder : Order :=
  { id := 1, customerName := "N", phone := "123", block := "", villa := "", note := "",
    items := [{ exItem 1 1 1 with price := 100 }], total := 100, freeGift := false,
    paymentMethod := "cod", customerId := none, status := "pending",
    addedToUdhar := false, stockRestored := false, paid := false, createdAt := exNow }

/-- C4 witness: the price-integrity theorem applied to the concrete cart
with client price 1; the stored total is 100, not 1. -/
theorem placeOrder_total_server_priced_witness :
    placeOrder exState exReqPrice1 exNow
      = ((placeOrder exState exReqPrice1 exNow).1, Except.ok exPlacedOrder)
    ∧ (∀ i ∈ exReqPrice1.items, i.isFreeGift = false →
        (exState.products.find? (fun p => p.id == i.productId)).isSome)
    ∧ exPlacedOrder.total
        = toFixed2 (serverCartTotal exState exReqPrice1.items exReqPrice1.freeGift)
    ∧ exPlacedOrder.total = 100 :=
  ⟨rfl, by decide,
   placeOrder_total_server_priced exState exReqPrice1 exNow
     (placeOrder exState exReqPrice1 exNow).1 exPlacedOrder rfl (by decide),
   rfl⟩

/-- A missing product id stays missing along the checkout loop. -/
theorem find?_none_forall₂ {l l2 : List Product} (h : List.Forall₂ samePricing l l2) (pid : ℕ)
    (hn : l.find? (fun p => p.id == pid) = none) : l2.find? (fun p => p.id == pid) = none := by
  rcases find?_forall₂ pid h with ⟨_, h2⟩ | ⟨p, q, hp, _, _⟩
  · exact h2
  · rw [hp] at hn
    exact absurd hn (by simp)

/-- The checkout loop ignores an item whose product id is not in the
catalog, wherever it sits in the cart. -/
theorem processOrderItems_skip (m : OrderItem) :
    ∀ (xs : List OrderItem) (s : State) (t : ℤ) (acc : List OrderItem) (ys : List OrderItem),
      s.products.find? (fun p => p.id == m.productId) = none →
      processOrderItems s t acc (xs ++ m :: ys) = processOrderItems s t acc (xs ++ ys) := by
  intro xs
  induction xs with
  | nil =>
    intro s t acc ys hm
    rw [List.nil_append, List.nil_append, processOrderItems]
    simp only [hm]
  | cons x xs ih =>
    intro s t acc ys hm
    rw [List.cons_append, List.cons_append, processOrderItems, processOrderItems]
    cases hf : s.products.find? (fun p => p.id == x.productId) with
    | none =>
      simp only [hf]
      exact ih s t acc ys hm
    | some product =>
      simp only [hf]
      by_cases hd : product.disabled
      · rw [if_pos hd, if_pos hd]
      · rw [if_neg hd, if_neg hd]
        cases hres : reserveStock s product x with
        | error e => simp only [hres]
        | ok s1 =>
          simp only [hres]
          exact ih s1 _ _ ys
            (find?_none_forall₂ (reserveStock_sameExceptStock hres).1 m.productId hm)

/-- The finalization step reads the cart only through its free-gift
items. -/
theorem finalizeOrder_gift_congr (cn ph bl vi no pm : String) (g : Bool)
    (items1 items2 : List OrderItem)
    (hgift : items1.filter (fun i => i.isFreeGift) = items2.filter (fun i => i.isFreeGift)) :
    ∀ (s1 : State) (T : ℤ) (v : List OrderItem) (now : String),
      finalizeOrder s1 ⟨cn, ph, bl, vi, no, items1, g, pm⟩ T v now
        = finalizeOrder s1 ⟨cn, ph, bl, vi, no, items2, g, pm⟩ T v now := by
  intro s1 T v now
  simp only [finalizeOrder]
  rw [hgift]

/-- C10.  A cart line item whose product id matches no catalog product is
silently skipped: the request behaves exactly as if the item were not in
the cart at all (same acceptance, same total, same stored order without
the item, same stock effects). -/
theorem placeOrder_skips_missing_product (s : State) (req : OrderReq) (now : String)
    (pre post : List OrderItem) (m : OrderItem)
    (hitems : req.items = pre ++ m :: post)
    (hng : m.isFreeGift = false)
    (hmiss : s.products.find? (fun p => p.id == m.productId) = none)
    (hne : pre ++ post ≠ []) :
    placeOrder s req now = placeOrder s { req with items := pre ++ post } now := by
  obtain ⟨cn, ph, bl, vi, no, items0, g, pm⟩ := req
  have hitems2 : items0 = pre ++ m :: post := hitems
  subst hitems2
  show placeOrder s ⟨cn, ph, bl, vi, no, pre ++ m :: post, g, pm⟩ now
    = placeOrder s ⟨cn, ph, bl, vi, no, pre ++ post, g, pm⟩ now
  simp only [placeOrder]
  have h1 : (pre ++ m :: post).isEmpty = false := by
    cases pre <;> rfl
  have h2 : (pre ++ post).isEmpty = false := by
    cases hpp : pre ++ post with
    | nil => exact absurd hpp hne
    | cons a l => rfl
  simp only [h1, h2]
  have hproc : processOrderItems s 0 [] ((pre ++ m :: post).filter (fun i => !i.isFreeGift))
      = processOrderItems s 0 [] ((pre ++ post).filter (fun i => !i.isFreeGift)) := by
    rw [List.filter_append, List.filter_append, List.filter_cons_of_pos (by simp [hng])]
    exact processOrderItems_skip m (pre.filter (fun i => !i.isFreeGift)) s 0 []
      (post.filter (fun i => !i.isFreeGift)) hmiss
  rw [hproc]
  have hgift : (pre ++ m :: post).filter (fun i => i.isFreeGift)
      = (pre ++ post).filter (fun i => i.isFreeGift) := by
    rw [List.filter_append, List.filter_append, List.filter_cons_of_neg (by simp [hng])]
  simp only [finalizeOrder_gift_congr cn ph bl vi no pm g (pre ++ m :: post) (pre ++ post) hgift]

/-- Cart containing an item for the non-existent product 99 ahead of a
regular item. -/
def exReqMiss : OrderReq :=
  { customerName := "N", phone := "123", block := "", villa := "", note := "",
    items := [exItem 99 1 1, exItem 1 1 1], freeGift := false, paymentMethod := "" }

/-- C10 witness: the skip theorem applied to the concrete cart with the
missing product 99. -/
theorem placeOrder_skips_missing_product_witness :
    exReqMiss.items = [] ++ exItem 99 1 1 :: [exItem 1 1 1]
    ∧ (exItem 99 1 1).isFreeGift = false
    ∧ exState.products.find? (fun p => p.id == (exItem 99 1 1).productId) = none
    ∧ ([] ++ [exItem 1 1 1] : List OrderItem) ≠ []
    ∧ placeOrder exState exReqMiss exNow
        = placeOrder exState { exReqMiss with items := [] ++ [exItem 1 1 1] } exNow :=
  ⟨rfl, rfl, rfl, by decide,
   placeOrder_skips_missing_product exState exReqMiss exNow [] [exItem 1 1 1]
     (exItem 99 1 1) rfl rfl rfl (by decide)⟩

end BscStore
